import Mathlib

/-!
Credential issuance handler of the PostgreSQL secret backend.

A shallow embedding of `pathRoleCreateRead`
(`builtin/logical/postgresql/path_role_create.go`) together with the
properties of its issuance flow: principal generation, lease resolution,
expiration padding, the store-call trace and the secret envelope.

Go strings are byte sequences, `len` counts bytes and `s[:n]` slices bytes,
so a Go string is embedded as a list of bytes. The collaborators of the
handler (role store, lease store, UUID generator, clock, database handle)
are gathered in an environment record that fixes what each call returns;
the handler is a pure function of that record and of the request, and it
returns the Go result pair together with the ordered list of collaborator
calls it made.
-/

namespace Postgresql

/-! ## Strings -/

/-- Go `string`: an immutable sequence of bytes. -/
abbrev GoString := List UInt8

/-- Bytes of a string literal of the source (UTF-8, as the Go compiler stores it). -/
def lit (s : String) : GoString := s.toList.flatMap String.utf8EncodeChar

/-- Go slice expression `s[:n]` on a string: defined when `n ≤ len(s)`,
a run-time panic (here `none`) otherwise. -/
def sliceTo (s : GoString) (n : Nat) : Option GoString :=
  if n ≤ s.length then some (s.take n) else none

/-- Go `fmt.Sprintf("%s-%s", a, b)` on two strings. -/
def sprintfDash (a b : GoString) : GoString := a ++ lit "-" ++ b

/-- Go `fmt.Sprintf("unknown role: %s", name)`. -/
def sprintfUnknownRole (name : GoString) : GoString := lit "unknown role: " ++ name

/-! ## Principal generation (lines 53-61) -/

/-- Lines 54-57: the display name cut to 26 bytes when it is longer. -/
def truncDisplayName (displayName : GoString) : Option GoString :=
  if displayName.length > 26 then sliceTo displayName 26 else some displayName

/-- Lines 54-61: the principal derived from the caller display name and the
string returned by `generateUUID`. `none` stands for a slice out of range. -/
def genUsername (displayName uuid : GoString) : Option GoString :=
  match truncDisplayName displayName with
  | none => none
  | some dn =>
    let username := sprintfDash dn uuid
    if username.length > 63 then sliceTo username 63 else some username

/-! ## Durations and the padded expiration offset (lines 63-65)

`time.Duration` is an `int64` count of nanoseconds. The padding is
`time.Duration(float64(L) * 0.1)`. Every quantity involved is far from the
subnormal and overflow ranges of binary64, so each floating-point operation
is exactly "round the real result to 53 significant bits, ties to even",
which is computed below on natural numbers. The constant `0.1` is the
binary64 number `3602879701896397 * 2^-55`. -/

/-- Go `time.Duration`: nanoseconds as a signed 64-bit integer. -/
abbrev Duration := Int

/-- Go `time.Hour`. -/
def Hour : Duration := 3600 * 1000000000

/-- Two-complement wrap-around of a signed 64-bit result. -/
def wrap64 (x : Int) : Int := (x + 2 ^ 63) % 2 ^ 64 - 2 ^ 63

/-- Number of binary digits of `n`, with `fuel` bounding the digits looked at. -/
def bitLenAux : Nat → Nat → Nat
  | 0, _ => 0
  | fuel + 1, n => if n = 0 then 0 else bitLenAux fuel (n / 2) + 1

/-- Number of binary digits of `n` (`0` for `0`). -/
def bitLen (n : Nat) : Nat := bitLenAux n n

/-- Nearest integer to `n / d`, ties to the even one. -/
def roundHalfEven (n d : Nat) : Nat :=
  let q := n / d
  let r := n % d
  if 2 * r < d then q
  else if d < 2 * r then q + 1
  else if q % 2 = 0 then q else q + 1

/-- Rounding of a natural number to 53 significant bits, ties to even: the
binary64 value nearest to `n`. -/
def roundSig53 (n : Nat) : Nat :=
  let s := bitLen n - 53
  roundHalfEven n (2 ^ s) * 2 ^ s

/-- Significand of the binary64 constant `0.1 = tenthSig * 2^-55`. -/
def tenthSig : Nat := 3602879701896397

/-- Magnitude of `time.Duration(float64(L) * 0.1)` for `|L| = a`:
`float64` conversion rounds `a`, the product with `0.1` is rounded again,
and the conversion back to an integer drops the fraction. -/
def padMagnitude (a : Nat) : Nat := roundSig53 (roundSig53 a * tenthSig) / 2 ^ 55

/-- Line 64, `time.Duration(float64(lease.Lease) * 0.1)`: rounding to
nearest is symmetric in the sign and the integer conversion truncates toward
zero, so the padding of a negative duration is the negated padding of its
magnitude. -/
def leasePadding (L : Int) : Int :=
  if L < 0 then -((padMagnitude L.natAbs : Nat) : Int) else ((padMagnitude L.natAbs : Nat) : Int)

/-- Line 64, `lease.Lease + time.Duration(float64(lease.Lease) * 0.1)`: the
offset added to the issuance time, an `int64` sum. -/
def leaseOffset (L : Int) : Int := wrap64 (L + leasePadding L)

/-! ## Data read and produced by the handler -/

/-- Go `error` value. -/
structure GoError where
  msg : GoString
deriving DecidableEq, Repr

/-- Go `map[string]string` / `map[string]interface{}` literal with string
values, in the order the source writes its entries. -/
abbrev GoMap := List (GoString × GoString)

/-- Role entry as read from the role store; only `SQL` is used here. -/
structure RoleEntry where
  SQL : GoString
deriving DecidableEq, Repr

/-- Lease policy `configLease`; only `Lease` is used here. -/
structure ConfigLease where
  Lease : Duration
deriving DecidableEq, Repr

/-- The request fields the handler reads: `data.Get("name")` and
`req.DisplayName`. -/
structure Request where
  name : GoString
  DisplayName : GoString
deriving DecidableEq, Repr

/-- Modelled from the spec: the framework response type, whose declaration is
outside this package. `error msg` is `logical.ErrorResponse(msg)`;
`secret data internal lease` is the response assembled by
`b.Secret(SecretCredsType).Response(data, internal)` (pure assembly of the
public and the internal fields) whose `Secret.Lease` was then set to `lease`. -/
inductive Response where
  | error (msg : GoString)
  | secret (data : GoMap) (internal : GoMap) (lease : Duration)
deriving DecidableEq, Repr

/-- Which handle a statement went through: the bare connection `db` or the
transaction `tx`. -/
inductive Handle where
  | conn
  | tx
deriving DecidableEq, Repr

/-- Calls made to the collaborators, with their outcome (`ok = true` when
the call returned a nil error). -/
inductive Event where
  | roleRead (name : GoString) (ok : Bool)
  | leaseRead (ok : Bool)
  | dbOpen (ok : Bool)
  | begin (ok : Bool)
  | prepare (h : Handle) (sql : GoString) (ok : Bool)
  | exec (h : Handle) (sql : GoString) (ok : Bool)
  | commit (ok : Bool)
  | rollback
deriving DecidableEq, Repr

/-- What a call of the handler ends with: the Go result pair
`(*logical.Response, error)`, or a run-time panic. -/
inductive Outcome where
  | returned (resp : Option Response) (err : Option GoError)
  | panicked
deriving DecidableEq, Repr

/-- Result of one call of the handler: its outcome and the collaborator calls
it made, oldest first. -/
structure Result where
  outcome : Outcome
  trace : List Event
deriving DecidableEq, Repr

/-- Everything outside the handler, fixed for one call. `prepareErr i` and
`execErr i` are the errors of `Prepare` and `Exec` on the statement of index
`i` (from 0), `none` meaning success. `SplitSQL`, `Query` and the time
formatting are functions whose source is outside this file. -/
structure Env where
  /-- Result of `b.Role(req.Storage, name)`. -/
  Role : GoString → Except GoError (Option RoleEntry)
  /-- Result of `b.Lease(req.Storage)`. -/
  Lease : Except GoError (Option ConfigLease)
  /-- First string returned by `generateUUID` (line 58). -/
  uuid1 : GoString
  /-- Second string returned by `generateUUID` (line 62). -/
  uuid2 : GoString
  /-- Result of `time.Now().UTC()`, in nanoseconds since the epoch. -/
  now : Int
  /-- Function `Format("2006-01-02 15:04:05")` on an instant. -/
  formatTime : Int → GoString
  /-- Error of `b.DB(req.Storage)`. -/
  dbErr : Option GoError
  /-- Error of `db.Begin()`. -/
  beginErr : Option GoError
  prepareErr : Nat → Option GoError
  execErr : Nat → Option GoError
  /-- Error of `tx.Commit()`. -/
  commitErr : Option GoError
  SplitSQL : GoString → List GoString
  Query : GoString → GoMap → GoString

/-! ## The handler -/

/-- Lines 82-86: the binding map given to `Query` for every statement. -/
def bindings (username password expiration : GoString) : GoMap :=
  [(lit "name", username), (lit "password", password), (lit "expiration", expiration)]

/-- Lines 63-65: the formatted expiration. -/
def expirationOf (w : Env) (lease : ConfigLease) : GoString :=
  w.formatTime (w.now + leaseOffset lease.Lease)

/-- Lines 81-93: the statement loop from the statement of index `i` on. It
returns the calls made and the error that stopped the loop, if any. Every
statement is prepared through the connection handle `db` (line 82). -/
def execLoop (w : Env) (b : GoMap) : Nat → List GoString → List Event × Option GoError
  | _, [] => ([], none)
  | i, query :: rest =>
    let sql := w.Query query b
    match w.prepareErr i with
    | some err => ([Event.prepare Handle.conn sql false], some err)
    | none =>
      match w.execErr i with
      | some err =>
        ([Event.prepare Handle.conn sql true, Event.exec Handle.conn sql false], some err)
      | none =>
        let r := execLoop w b (i + 1) rest
        (Event.prepare Handle.conn sql true :: Event.exec Handle.conn sql true :: r.1, r.2)

/-- Lines 67-108, once role, lease and principal are known: connection,
transaction, statement loop, commit, deferred rollback and the response.
`pre` is the list of calls already made. -/
def issue (w : Env) (role : RoleEntry) (lease : ConfigLease) (username : GoString)
    (pre : List Event) : Result :=
  let password := w.uuid2
  let expiration := expirationOf w lease
  match w.dbErr with
  | some err => ⟨Outcome.returned none (some err), pre ++ [Event.dbOpen false]⟩
  | none =>
    match w.beginErr with
    | some err =>
      ⟨Outcome.returned none (some err), pre ++ [Event.dbOpen true, Event.begin false]⟩
    | none =>
      let pre2 := pre ++ [Event.dbOpen true, Event.begin true]
      let r := execLoop w (bindings username password expiration) 0 (w.SplitSQL role.SQL)
      match r.2 with
      | some err => ⟨Outcome.returned none (some err), pre2 ++ r.1 ++ [Event.rollback]⟩
      | none =>
        match w.commitErr with
        | some err =>
          ⟨Outcome.returned none (some err),
            pre2 ++ r.1 ++ [Event.commit false, Event.rollback]⟩
        | none =>
          ⟨Outcome.returned
              (some (Response.secret
                [(lit "username", username), (lit "password", password)]
                [(lit "username", username)]
                lease.Lease))
              none,
            pre2 ++ r.1 ++ [Event.commit true, Event.rollback]⟩

/-- Lines 49-51: the lease policy in force, one hour when none is stored. -/
def effectiveLease (stored : Option ConfigLease) : ConfigLease :=
  match stored with
  | none => ⟨1 * Hour⟩
  | some l => l

/-- The handler `pathRoleCreateRead` (lines 31-109). -/
def pathRoleCreateRead (w : Env) (req : Request) : Result :=
  let name := req.name
  match w.Role name with
  | Except.error err => ⟨Outcome.returned none (some err), [Event.roleRead name false]⟩
  | Except.ok none =>
    ⟨Outcome.returned (some (Response.error (sprintfUnknownRole name))) none,
      [Event.roleRead name true]⟩
  | Except.ok (some role) =>
    match w.Lease with
    | Except.error err =>
      ⟨Outcome.returned none (some err), [Event.roleRead name true, Event.leaseRead false]⟩
    | Except.ok stored =>
      let lease := effectiveLease stored
      let pre := [Event.roleRead name true, Event.leaseRead true]
      match genUsername req.DisplayName w.uuid1 with
      | none => ⟨Outcome.panicked, pre⟩
      | some username => issue w role lease username pre

/-! ## Reading the trace -/

/-- Statement texts handed to `Prepare`, in call order. -/
def preparedTexts : List Event → List GoString
  | [] => []
  | Event.prepare _ sql _ :: rest => sql :: preparedTexts rest
  | _ :: rest => preparedTexts rest

/-- Statement texts whose `Exec` was called, in call order. -/
def executedTexts : List Event → List GoString
  | [] => []
  | Event.exec _ sql _ :: rest => sql :: executedTexts rest
  | _ :: rest => executedTexts rest

/-- Whether `tx.Commit()` was called. -/
def commitCalled (tr : List Event) : Bool :=
  tr.any (fun ev => match ev with
    | Event.commit _ => true
    | _ => false)

/-- Whether `tx.Rollback()` was called. -/
def rollbackCalled (tr : List Event) : Bool :=
  tr.any (fun ev => match ev with
    | Event.rollback => true
    | _ => false)

/-- Calls of a run of statements that are each prepared and executed through
the connection handle without error. -/
def okEvents : List GoString → List Event
  | [] => []
  | sql :: rest =>
    Event.prepare Handle.conn sql true :: Event.exec Handle.conn sql true :: okEvents rest

/-! ## Store model

The backing store as the atomicity property sees it: a statement executed
through the transaction handle takes effect at `Commit` and is discarded by
`Rollback`; a statement executed through the bare connection handle takes
effect at once. -/

/-- Durable effects and effects pending in the open transaction. -/
structure Store where
  committed : List GoString
  pending : List GoString
deriving DecidableEq, Repr

/-- Effect of one collaborator call on the store. -/
def Store.step (s : Store) : Event → Store
  | Event.exec Handle.conn sql true => ⟨s.committed ++ [sql], s.pending⟩
  | Event.exec Handle.tx sql true => ⟨s.committed, s.pending ++ [sql]⟩
  | Event.commit true => ⟨s.committed ++ s.pending, []⟩
  | Event.commit false => ⟨s.committed, []⟩
  | Event.rollback => ⟨s.committed, []⟩
  | _ => s

/-- Store after a sequence of calls. -/
def Store.run (s : Store) (tr : List Event) : Store := tr.foldl Store.step s

/-- Store with nothing in it. -/
def Store.empty : Store := ⟨[], []⟩

/-! ## Concrete collaborators used in the examples -/

/-- Replacement of every occurrence of `pat` by `rep`; the counter skips the
rest of an occurrence already replaced. -/
def replaceAllAux (pat rep : GoString) : Nat → GoString → GoString
  | _, [] => []
  | skip + 1, _ :: cs => replaceAllAux pat rep skip cs
  | 0, c :: cs =>
    if pat.isPrefixOf (c :: cs) then rep ++ replaceAllAux pat rep (pat.length - 1) cs
    else c :: replaceAllAux pat rep 0 cs

/-- Modelled from the spec: the statement templater `Query`, whose source is
not in this file. It substitutes every occurrence of each bound placeholder,
written `{{name}}`, with its value; placeholders without a binding stay. -/
def querySubst (tpl : GoString) (data : GoMap) : GoString :=
  data.foldl
    (fun t kv => replaceAllAux (lit "\x7b\x7b" ++ kv.1 ++ lit "\x7d\x7d") kv.2 0 t) tpl

/-- White space bytes removed around a statement. -/
def isSpaceByte (b : UInt8) : Bool := b == 32 || b == 9 || b == 10 || b == 11 || b == 12 || b == 13

/-- Removal of leading and trailing white space. -/
def trimSpace (s : GoString) : GoString :=
  ((s.dropWhile isSpaceByte).reverse.dropWhile isSpaceByte).reverse

/-- Modelled from the spec: the statement splitter `SplitSQL`, whose source
is not in this file. It cuts the template at the statement separator `;` and
keeps the non-empty statements in order. -/
def splitSQL (sql : GoString) : List GoString :=
  ((sql.splitOn 59).map trimSpace).filter (fun p => 0 < p.length)

/-- A two-statement role, as in the rollback scenario of the specification. -/
def demoRole : RoleEntry :=
  ⟨lit "CREATE USER \x7b\x7bname\x7d\x7d; GRANT BAD_PERMISSION TO \x7b\x7bname\x7d\x7d;"⟩

/-- An environment in which the role `demo` exists, no lease policy is stored
and every store call succeeds. -/
def demoEnv : Env where
  Role := fun name => if name = lit "demo" then Except.ok (some demoRole) else Except.ok none
  Lease := Except.ok none
  uuid1 := lit "6ba7b810-9dad-11d1-80b4-00c04fd430c8"
  uuid2 := lit "6ba7b811-9dad-11d1-80b4-00c04fd430c8"
  now := 0
  formatTime := fun _ => lit "1970-01-01 01:06:00"
  dbErr := none
  beginErr := none
  prepareErr := fun _ => none
  execErr := fun _ => none
  commitErr := none
  SplitSQL := splitSQL
  Query := querySubst

/-- The environment `demoEnv` with a store that rejects the second statement
at `Exec`. -/
def failingEnv : Env :=
  { demoEnv with execErr := fun i => if i = 1 then some ⟨lit "permission denied"⟩ else none }

/-- A request for the role `demo` by the caller `token`. -/
def demoReq : Request := ⟨lit "demo", lit "token"⟩

/-- The principal the handler computes for a request. -/
def usernameOf (w : Env) (req : Request) : GoString :=
  (sprintfDash (req.DisplayName.take 26) w.uuid1).take 63

/-- Calls made before the principal is generated, when role and lease were read. -/
def preIssue (req : Request) : List Event :=
  [Event.roleRead req.name true, Event.leaseRead true]

/-- Statement of index `j` is prepared and executed without error. -/
def stmtOk (w : Env) (j : Nat) : Prop := w.prepareErr j = none ∧ w.execErr j = none

/-- The binding map the handler renders the statements of a request with. -/
def bindingsOf (w : Env) (req : Request) (lease : ConfigLease) : GoMap :=
  bindings (usernameOf w req) w.uuid2 (expirationOf w lease)

/-- Calls made up to and including a successful `Begin`. -/
def preLoop (req : Request) : List Event :=
  preIssue req ++ [Event.dbOpen true, Event.begin true]

/-- The response of a successful issuance. -/
def secretResponse (username password : GoString) (lease : Duration) : Response :=
  Response.secret [(lit "username", username), (lit "password", password)]
    [(lit "username", username)] lease

/-- The environment `w` with another rendering function in place of `Query`. -/
def withQuery (w : Env) (Q : GoString → GoMap → GoString) : Env :=
  { w with Query := Q }

/-- Number of statements handed to `Prepare` by the loop started at index `i`
with `n` statements left: the loop stops at the first failing `Prepare` or
`Exec`, whose statement was still handed to `Prepare`. -/
def loopCount (w : Env) : Nat → Nat → Nat
  | _, 0 => 0
  | i, n + 1 =>
    match w.prepareErr i with
    | some _ => 1
    | none =>
      match w.execErr i with
      | some _ => 1
      | none => loopCount w (i + 1) n + 1

/-- Number of statements handed to `Prepare` in a call that reached the lease:
none unless connection and `Begin` succeed. -/
def preparedCount (w : Env) (n : Nat) : Nat :=
  match w.dbErr, w.beginErr with
  | none, none => loopCount w 0 n
  | _, _ => 0

/-! ## Principal generation: facts -/

theorem lit_dash_length : (lit "-").length = 1 := by decide

theorem sprintfDash_length (a b : GoString) :
    (sprintfDash a b).length = a.length + 1 + b.length := by
  simp [sprintfDash, lit_dash_length]
  omega

theorem truncDisplayName_eq (d : GoString) :
    truncDisplayName d = some (d.take 26) := by
  unfold truncDisplayName sliceTo
  by_cases h : d.length > 26
  · have h2 : 26 ≤ d.length := by omega
    simp [h, h2]
  · have h2 : d.length ≤ 26 := by omega
    simp [h, List.take_of_length_le h2]

theorem genUsername_eq (d u : GoString) :
    genUsername d u = some ((sprintfDash (d.take 26) u).take 63) := by
  unfold genUsername
  rw [truncDisplayName_eq]
  simp only [sliceTo]
  by_cases h : (sprintfDash (d.take 26) u).length > 63
  · have h2 : 63 ≤ (sprintfDash (d.take 26) u).length := by omega
    simp [h, h2]
  · have h2 : (sprintfDash (d.take 26) u).length ≤ 63 := by omega
    simp [h, List.take_of_length_le h2]

/-! ## The handler, case by case -/

theorem handler_role_error (w : Env) (req : Request) (err : GoError)
    (h : w.Role req.name = Except.error err) :
    pathRoleCreateRead w req =
      ⟨Outcome.returned none (some err), [Event.roleRead req.name false]⟩ := by
  simp [pathRoleCreateRead, h]

theorem handler_role_missing (w : Env) (req : Request)
    (h : w.Role req.name = Except.ok none) :
    pathRoleCreateRead w req =
      ⟨Outcome.returned (some (Response.error (sprintfUnknownRole req.name))) none,
        [Event.roleRead req.name true]⟩ := by
  simp [pathRoleCreateRead, h]

theorem handler_lease_error (w : Env) (req : Request) (role : RoleEntry) (err : GoError)
    (h : w.Role req.name = Except.ok (some role)) (hl : w.Lease = Except.error err) :
    pathRoleCreateRead w req =
      ⟨Outcome.returned none (some err),
        [Event.roleRead req.name true, Event.leaseRead false]⟩ := by
  simp [pathRoleCreateRead, h, hl]

theorem handler_issue (w : Env) (req : Request) (role : RoleEntry)
    (stored : Option ConfigLease)
    (h : w.Role req.name = Except.ok (some role)) (hl : w.Lease = Except.ok stored) :
    pathRoleCreateRead w req =
      issue w role (effectiveLease stored) (usernameOf w req) (preIssue req) := by
  simp [pathRoleCreateRead, h, hl, genUsername_eq, usernameOf, preIssue]

theorem issue_not_panicked (w : Env) (role : RoleEntry) (lease : ConfigLease)
    (username : GoString) (pre : List Event) :
    (issue w role lease username pre).outcome ≠ Outcome.panicked := by
  unfold issue
  cases w.dbErr with
  | some e => simp
  | none =>
    cases w.beginErr with
    | some e => simp
    | none =>
      simp only
      split
      · simp
      · cases w.commitErr <;> simp

/-- C3: for every display name and every string returned by `generateUUID`
the principal is computed without a slice out of range (the result is
`some`, and the handler never panics) and has at most 63 bytes. -/
theorem C3_username_length_le_63 (d u : GoString) :
    (∃ username, genUsername d u = some username ∧ username.length ≤ 63) ∧
    (∃ dn, truncDisplayName d = some dn ∧ dn.length ≤ 26) ∧
    (∀ (w : Env) (req : Request), (pathRoleCreateRead w req).outcome ≠ Outcome.panicked) := by
  refine ⟨⟨_, genUsername_eq d u, ?_⟩, ⟨_, truncDisplayName_eq d, ?_⟩, ?_⟩
  · simp [List.length_take]
  · simp [List.length_take]
  · intro w req
    cases hR : w.Role req.name with
    | error err => simp [handler_role_error w req err hR]
    | ok r =>
      cases r with
      | none => simp [handler_role_missing w req hR]
      | some role =>
        cases hL : w.Lease with
        | error err => simp [handler_lease_error w req role err hR hL]
        | ok stored =>
          rw [handler_issue w req role stored hR hL]
          exact issue_not_panicked _ _ _ _ _

/-- C4: with a 36-byte UUID the principal is the first `min (len d) 26`
bytes of the display name, a dash and the whole UUID; the cut to 63 bytes
removes nothing, the UUID is a suffix of the principal, and a display name of
at most 26 bytes is kept whole in front of the dash and the non-empty UUID. -/
theorem C4_username_formula (d u : GoString) (hu : u.length = 36) :
    genUsername d u = some (d.take (min d.length 26) ++ lit "-" ++ u) ∧
    (sprintfDash (d.take 26) u).take 63 = sprintfDash (d.take 26) u ∧
    u <:+ d.take (min d.length 26) ++ lit "-" ++ u ∧
    (d.length ≤ 26 → genUsername d u = some (d ++ lit "-" ++ u) ∧ u ≠ []) := by
  have hlen : (sprintfDash (d.take 26) u).length ≤ 63 := by
    rw [sprintfDash_length, hu, List.length_take]
    omega
  have htake : d.take (min d.length 26) = d.take 26 := by
    by_cases h : d.length ≤ 26
    · rw [Nat.min_eq_left h, List.take_of_length_le h, List.take_of_length_le (le_refl _)]
    · rw [Nat.min_eq_right (by omega)]
  have hgen : genUsername d u = some (d.take (min d.length 26) ++ lit "-" ++ u) := by
    rw [genUsername_eq, List.take_of_length_le hlen, htake]
    rfl
  refine ⟨hgen, List.take_of_length_le hlen, List.suffix_append _ _, ?_⟩
  intro hd
  refine ⟨?_, ?_⟩
  · rw [hgen, htake, List.take_of_length_le hd]
  · intro h0
    rw [h0] at hu
    simp at hu

/-- Witness of C4: a five-byte display name and a 36-byte UUID. -/
theorem C4_username_formula_witness :
    (lit "6ba7b810-9dad-11d1-80b4-00c04fd430c8").length = 36 ∧
    genUsername (lit "token") (lit "6ba7b810-9dad-11d1-80b4-00c04fd430c8") =
      some (lit "token-6ba7b810-9dad-11d1-80b4-00c04fd430c8") :=
  ⟨by decide,
   ((C4_username_formula (lit "token") (lit "6ba7b810-9dad-11d1-80b4-00c04fd430c8")
      (by decide)).2.2.2 (by decide)).1⟩

/-- C5: when the role store returns no role, the handler returns the error
response `unknown role: <name>` with a nil error and its only collaborator
call is the role read; when the role store returns an error, the handler
returns that error with a nil response, again after the role read only. -/
theorem C5_unknown_role (w : Env) (req : Request) :
    (w.Role req.name = Except.ok none →
      pathRoleCreateRead w req =
        ⟨Outcome.returned (some (Response.error (lit "unknown role: " ++ req.name))) none,
          [Event.roleRead req.name true]⟩) ∧
    (∀ err, w.Role req.name = Except.error err →
      pathRoleCreateRead w req =
        ⟨Outcome.returned none (some err), [Event.roleRead req.name false]⟩) :=
  ⟨fun h => handler_role_missing w req h, fun err h => handler_role_error w req err h⟩

/-- Witness of C5: `demoEnv` has no role named `nope`. -/
theorem C5_unknown_role_witness :
    demoEnv.Role (lit "nope") = Except.ok none ∧
    pathRoleCreateRead demoEnv ⟨lit "nope", lit "token"⟩ =
      ⟨Outcome.returned (some (Response.error (lit "unknown role: nope"))) none,
        [Event.roleRead (lit "nope") true]⟩ :=
  ⟨rfl, (C5_unknown_role demoEnv ⟨lit "nope", lit "token"⟩).1 rfl⟩

/-! ## The statement loop -/

theorem execLoop_nil (w : Env) (b : GoMap) (i : Nat) : execLoop w b i [] = ([], none) := by
  simp [execLoop]

theorem execLoop_prepare_fails (w : Env) (b : GoMap) (i : Nat) (q : GoString)
    (rest : List GoString) (e : GoError) (h : w.prepareErr i = some e) :
    execLoop w b i (q :: rest) = ([Event.prepare Handle.conn (w.Query q b) false], some e) := by
  simp [execLoop, h]

theorem execLoop_exec_fails (w : Env) (b : GoMap) (i : Nat) (q : GoString)
    (rest : List GoString) (e : GoError) (hp : w.prepareErr i = none)
    (h : w.execErr i = some e) :
    execLoop w b i (q :: rest) =
      ([Event.prepare Handle.conn (w.Query q b) true,
        Event.exec Handle.conn (w.Query q b) false], some e) := by
  simp [execLoop, hp, h]

theorem execLoop_step_ok (w : Env) (b : GoMap) (i : Nat) (q : GoString)
    (rest : List GoString) (h : stmtOk w i) :
    execLoop w b i (q :: rest) =
      (Event.prepare Handle.conn (w.Query q b) true ::
        Event.exec Handle.conn (w.Query q b) true :: (execLoop w b (i + 1) rest).1,
       (execLoop w b (i + 1) rest).2) := by
  simp [execLoop, h.1, h.2]

theorem execLoop_append (w : Env) (b : GoMap) (back : List GoString) :
    ∀ (front : List GoString) (i : Nat),
      (∀ j, j < front.length → stmtOk w (i + j)) →
      execLoop w b i (front ++ back) =
        (okEvents (front.map (fun q => w.Query q b)) ++
          (execLoop w b (i + front.length) back).1,
         (execLoop w b (i + front.length) back).2) := by
  intro front
  induction front with
  | nil => intro i _; simp [okEvents]
  | cons q rest ih =>
    intro i h
    have h0 : stmtOk w i := by simpa using h 0 (by simp)
    have hrest : ∀ j, j < rest.length → stmtOk w (i + 1 + j) := by
      intro j hj
      have := h (j + 1) (by simp; omega)
      rwa [show i + (j + 1) = i + 1 + j by omega] at this
    rw [List.cons_append, execLoop_step_ok w b i q _ h0, ih (i + 1) hrest]
    simp [okEvents, Nat.add_assoc, Nat.add_comm 1]

theorem execLoop_all_ok (w : Env) (b : GoMap) (qs : List GoString) (i : Nat)
    (h : ∀ j, j < qs.length → stmtOk w (i + j)) :
    execLoop w b i qs = (okEvents (qs.map (fun q => w.Query q b)), none) := by
  have := execLoop_append w b [] qs i h
  simpa [execLoop_nil] using this

theorem execLoop_no_error_iff (w : Env) (b : GoMap) :
    ∀ (qs : List GoString) (i : Nat),
      (execLoop w b i qs).2 = none ↔ ∀ j, j < qs.length → stmtOk w (i + j) := by
  intro qs
  induction qs with
  | nil => intro i; simp [execLoop]
  | cons q rest ih =>
    intro i
    constructor
    · intro h j hj
      cases hp : w.prepareErr i with
      | some e => rw [execLoop_prepare_fails w b i q rest e hp] at h; simp at h
      | none =>
        cases he : w.execErr i with
        | some e => rw [execLoop_exec_fails w b i q rest e hp he] at h; simp at h
        | none =>
          rw [execLoop_step_ok w b i q rest ⟨hp, he⟩] at h
          cases j with
          | zero => exact ⟨hp, he⟩
          | succ k =>
            have := (ih (i + 1)).1 h k (by simpa using hj)
            rwa [show i + 1 + k = i + (k + 1) by omega] at this
    · intro h
      have h0 : stmtOk w i := by simpa using h 0 (by simp)
      rw [execLoop_step_ok w b i q rest h0]
      apply (ih (i + 1)).2
      intro j hj
      have := h (j + 1) (by simp; omega)
      rwa [show i + (j + 1) = i + 1 + j by omega] at this

theorem commitCalled_append (a b : List Event) :
    commitCalled (a ++ b) = (commitCalled a || commitCalled b) := by
  simp [commitCalled]

theorem rollbackCalled_append (a b : List Event) :
    rollbackCalled (a ++ b) = (rollbackCalled a || rollbackCalled b) := by
  simp [rollbackCalled]

theorem commitCalled_execLoop (w : Env) (b : GoMap) :
    ∀ (qs : List GoString) (i : Nat), commitCalled (execLoop w b i qs).1 = false := by
  intro qs
  induction qs with
  | nil => intro i; simp [execLoop, commitCalled]
  | cons q rest ih =>
    intro i
    cases hp : w.prepareErr i with
    | some e => rw [execLoop_prepare_fails w b i q rest e hp]; simp [commitCalled]
    | none =>
      cases he : w.execErr i with
      | some e => rw [execLoop_exec_fails w b i q rest e hp he]; simp [commitCalled]
      | none =>
        rw [execLoop_step_ok w b i q rest ⟨hp, he⟩]
        have := ih (i + 1)
        simp [commitCalled] at this ⊢
        exact this

/-! ## Connection, transaction and commit -/

theorem issue_db_error (w : Env) (role : RoleEntry) (lease : ConfigLease)
    (username : GoString) (pre : List Event) (e : GoError) (h : w.dbErr = some e) :
    issue w role lease username pre =
      ⟨Outcome.returned none (some e), pre ++ [Event.dbOpen false]⟩ := by
  simp [issue, h]

theorem issue_begin_error (w : Env) (role : RoleEntry) (lease : ConfigLease)
    (username : GoString) (pre : List Event) (e : GoError) (h : w.dbErr = none)
    (hb : w.beginErr = some e) :
    issue w role lease username pre =
      ⟨Outcome.returned none (some e), pre ++ [Event.dbOpen true, Event.begin false]⟩ := by
  simp [issue, h, hb]

theorem issue_loop_error (w : Env) (role : RoleEntry) (lease : ConfigLease)
    (username : GoString) (pre : List Event) (e : GoError) (h : w.dbErr = none)
    (hb : w.beginErr = none)
    (hl : (execLoop w (bindings username w.uuid2 (expirationOf w lease)) 0
            (w.SplitSQL role.SQL)).2 = some e) :
    issue w role lease username pre =
      ⟨Outcome.returned none (some e),
        pre ++ [Event.dbOpen true, Event.begin true] ++
          (execLoop w (bindings username w.uuid2 (expirationOf w lease)) 0
            (w.SplitSQL role.SQL)).1 ++ [Event.rollback]⟩ := by
  simp [issue, h, hb, hl]

theorem issue_commit_error (w : Env) (role : RoleEntry) (lease : ConfigLease)
    (username : GoString) (pre : List Event) (e : GoError) (h : w.dbErr = none)
    (hb : w.beginErr = none)
    (hl : (execLoop w (bindings username w.uuid2 (expirationOf w lease)) 0
            (w.SplitSQL role.SQL)).2 = none)
    (hc : w.commitErr = some e) :
    issue w role lease username pre =
      ⟨Outcome.returned none (some e),
        pre ++ [Event.dbOpen true, Event.begin true] ++
          (execLoop w (bindings username w.uuid2 (expirationOf w lease)) 0
            (w.SplitSQL role.SQL)).1 ++ [Event.commit false, Event.rollback]⟩ := by
  simp [issue, h, hb, hl, hc]

theorem issue_success (w : Env) (role : RoleEntry) (lease : ConfigLease)
    (username : GoString) (pre : List Event) (h : w.dbErr = none)
    (hb : w.beginErr = none)
    (hl : (execLoop w (bindings username w.uuid2 (expirationOf w lease)) 0
            (w.SplitSQL role.SQL)).2 = none)
    (hc : w.commitErr = none) :
    issue w role lease username pre =
      ⟨Outcome.returned (some (secretResponse username w.uuid2 lease.Lease)) none,
        pre ++ [Event.dbOpen true, Event.begin true] ++
          (execLoop w (bindings username w.uuid2 (expirationOf w lease)) 0
            (w.SplitSQL role.SQL)).1 ++ [Event.commit true, Event.rollback]⟩ := by
  simp [issue, h, hb, hl, hc, secretResponse]

theorem all_ok_zero (w : Env) (n : Nat) (h : ∀ j, j < n → stmtOk w j) :
    ∀ j, j < n → stmtOk w (0 + j) := by
  intro j hj
  simpa using h j hj

/-- C2: the store-call trace of the handler for a request whose role and
lease were read. A failing connection or `Begin` ends the call before any
statement; the statements are prepared and executed in order through the
first failing one, after which only `Rollback` follows and the error is
returned with a nil response; `Commit` is called exactly when every statement
went through, a failing `Commit` is returned with a nil response, and
`Rollback` is called whenever `Begin` succeeded. -/
theorem C2_trace_shape (w : Env) (req : Request) (role : RoleEntry)
    (stored : Option ConfigLease)
    (hRole : w.Role req.name = Except.ok (some role))
    (hLease : w.Lease = Except.ok stored) :
    (∀ e, w.dbErr = some e →
      pathRoleCreateRead w req =
        ⟨Outcome.returned none (some e), preIssue req ++ [Event.dbOpen false]⟩) ∧
    (∀ e, w.dbErr = none → w.beginErr = some e →
      pathRoleCreateRead w req =
        ⟨Outcome.returned none (some e),
          preIssue req ++ [Event.dbOpen true, Event.begin false]⟩) ∧
    (w.dbErr = none → w.beginErr = none →
      (∀ front q back e, w.SplitSQL role.SQL = front ++ q :: back →
        (∀ j, j < front.length → stmtOk w j) →
        w.prepareErr front.length = some e →
        pathRoleCreateRead w req =
          ⟨Outcome.returned none (some e),
            preLoop req ++
              okEvents (front.map (fun s => w.Query s (bindingsOf w req (effectiveLease stored)))) ++
              [Event.prepare Handle.conn
                (w.Query q (bindingsOf w req (effectiveLease stored))) false,
               Event.rollback]⟩) ∧
      (∀ front q back e, w.SplitSQL role.SQL = front ++ q :: back →
        (∀ j, j < front.length → stmtOk w j) →
        w.prepareErr front.length = none →
        w.execErr front.length = some e →
        pathRoleCreateRead w req =
          ⟨Outcome.returned none (some e),
            preLoop req ++
              okEvents (front.map (fun s => w.Query s (bindingsOf w req (effectiveLease stored)))) ++
              [Event.prepare Handle.conn
                (w.Query q (bindingsOf w req (effectiveLease stored))) true,
               Event.exec Handle.conn
                (w.Query q (bindingsOf w req (effectiveLease stored))) false,
               Event.rollback]⟩) ∧
      (∀ e, (∀ j, j < (w.SplitSQL role.SQL).length → stmtOk w j) →
        w.commitErr = some e →
        pathRoleCreateRead w req =
          ⟨Outcome.returned none (some e),
            preLoop req ++
              okEvents ((w.SplitSQL role.SQL).map
                (fun s => w.Query s (bindingsOf w req (effectiveLease stored)))) ++
              [Event.commit false, Event.rollback]⟩) ∧
      ((∀ j, j < (w.SplitSQL role.SQL).length → stmtOk w j) →
        w.commitErr = none →
        pathRoleCreateRead w req =
          ⟨Outcome.returned
              (some (secretResponse (usernameOf w req) w.uuid2 (effectiveLease stored).Lease))
              none,
            preLoop req ++
              okEvents ((w.SplitSQL role.SQL).map
                (fun s => w.Query s (bindingsOf w req (effectiveLease stored)))) ++
              [Event.commit true, Event.rollback]⟩) ∧
      (commitCalled (pathRoleCreateRead w req).trace = true ↔
        ∀ j, j < (w.SplitSQL role.SQL).length → stmtOk w j) ∧
      rollbackCalled (pathRoleCreateRead w req).trace = true) := by
  rw [handler_issue w req role stored hRole hLease]
  refine ⟨fun e h => issue_db_error _ _ _ _ _ e h,
    fun e h hb => issue_begin_error _ _ _ _ _ e h hb, ?_⟩
  intro hdb hbegin
  refine ⟨?_, ?_, ?_, ?_, ?_, ?_⟩
  · intro front q back e hsplit hfront hp
    have hloop := execLoop_append w (bindingsOf w req (effectiveLease stored)) (q :: back)
      front 0 (all_ok_zero w _ hfront)
    rw [Nat.zero_add, execLoop_prepare_fails _ _ _ q back e hp, ← hsplit] at hloop
    have h2 : (execLoop w (bindings (usernameOf w req) w.uuid2
        (expirationOf w (effectiveLease stored))) 0 (w.SplitSQL role.SQL)).2 = some e := by
      rw [show bindings (usernameOf w req) w.uuid2 (expirationOf w (effectiveLease stored)) =
        bindingsOf w req (effectiveLease stored) from rfl, hloop]
    rw [issue_loop_error _ _ _ _ _ e hdb hbegin h2]
    rw [show bindings (usernameOf w req) w.uuid2 (expirationOf w (effectiveLease stored)) =
        bindingsOf w req (effectiveLease stored) from rfl, hloop]
    simp [preLoop]
  · intro front q back e hsplit hfront hp he
    have hloop := execLoop_append w (bindingsOf w req (effectiveLease stored)) (q :: back)
      front 0 (all_ok_zero w _ hfront)
    rw [Nat.zero_add, execLoop_exec_fails _ _ _ q back e hp he, ← hsplit] at hloop
    have h2 : (execLoop w (bindings (usernameOf w req) w.uuid2
        (expirationOf w (effectiveLease stored))) 0 (w.SplitSQL role.SQL)).2 = some e := by
      rw [show bindings (usernameOf w req) w.uuid2 (expirationOf w (effectiveLease stored)) =
        bindingsOf w req (effectiveLease stored) from rfl, hloop]
    rw [issue_loop_error _ _ _ _ _ e hdb hbegin h2]
    rw [show bindings (usernameOf w req) w.uuid2 (expirationOf w (effectiveLease stored)) =
        bindingsOf w req (effectiveLease stored) from rfl, hloop]
    simp [preLoop]
  · intro e hall hc
    have hloop := execLoop_all_ok w (bindingsOf w req (effectiveLease stored))
      (w.SplitSQL role.SQL) 0 (all_ok_zero w _ hall)
    have h2 : (execLoop w (bindings (usernameOf w req) w.uuid2
        (expirationOf w (effectiveLease stored))) 0 (w.SplitSQL role.SQL)).2 = none := by
      rw [show bindings (usernameOf w req) w.uuid2 (expirationOf w (effectiveLease stored)) =
        bindingsOf w req (effectiveLease stored) from rfl, hloop]
    rw [issue_commit_error _ _ _ _ _ e hdb hbegin h2 hc]
    rw [show bindings (usernameOf w req) w.uuid2 (expirationOf w (effectiveLease stored)) =
        bindingsOf w req (effectiveLease stored) from rfl, hloop]
    simp [preLoop]
  · intro hall hc
    have hloop := execLoop_all_ok w (bindingsOf w req (effectiveLease stored))
      (w.SplitSQL role.SQL) 0 (all_ok_zero w _ hall)
    have h2 : (execLoop w (bindings (usernameOf w req) w.uuid2
        (expirationOf w (effectiveLease stored))) 0 (w.SplitSQL role.SQL)).2 = none := by
      rw [show bindings (usernameOf w req) w.uuid2 (expirationOf w (effectiveLease stored)) =
        bindingsOf w req (effectiveLease stored) from rfl, hloop]
    rw [issue_success _ _ _ _ _ hdb hbegin h2 hc]
    rw [show bindings (usernameOf w req) w.uuid2 (expirationOf w (effectiveLease stored)) =
        bindingsOf w req (effectiveLease stored) from rfl, hloop]
    simp [preLoop]
  · have hiff := execLoop_no_error_iff w (bindings (usernameOf w req) w.uuid2
        (expirationOf w (effectiveLease stored))) (w.SplitSQL role.SQL) 0
    have hcl := commitCalled_execLoop w (bindings (usernameOf w req) w.uuid2
        (expirationOf w (effectiveLease stored))) (w.SplitSQL role.SQL) 0
    have hpre : commitCalled (preIssue req ++ [Event.dbOpen true, Event.begin true]) = false := by
      simp [commitCalled, preIssue]
    simp only [Nat.zero_add] at hiff
    rw [← hiff]
    cases hl : (execLoop w (bindings (usernameOf w req) w.uuid2
        (expirationOf w (effectiveLease stored))) 0 (w.SplitSQL role.SQL)).2 with
    | some e =>
      rw [issue_loop_error _ _ _ _ _ e hdb hbegin hl]
      simp only [commitCalled_append, hcl, hpre]
      simp [commitCalled]
    | none =>
      cases hc : w.commitErr with
      | some e =>
        rw [issue_commit_error _ _ _ _ _ e hdb hbegin hl hc]
        simp only [commitCalled_append, hcl, hpre]
        simp [commitCalled]
      | none =>
        rw [issue_success _ _ _ _ _ hdb hbegin hl hc]
        simp only [commitCalled_append, hcl, hpre]
        simp [commitCalled]
  · have hpost : ∀ evs : List Event, rollbackCalled (evs ++ [Event.rollback]) = true := by
      intro evs
      rw [rollbackCalled_append]
      simp [rollbackCalled]
    have hpost2 : ∀ (evs : List Event) (ok : Bool),
        rollbackCalled (evs ++ [Event.commit ok, Event.rollback]) = true := by
      intro evs ok
      rw [rollbackCalled_append]
      simp [rollbackCalled]
    cases hl : (execLoop w (bindings (usernameOf w req) w.uuid2
        (expirationOf w (effectiveLease stored))) 0 (w.SplitSQL role.SQL)).2 with
    | some e =>
      rw [issue_loop_error _ _ _ _ _ e hdb hbegin hl]
      exact hpost _
    | none =>
      cases hc : w.commitErr with
      | some e =>
        rw [issue_commit_error _ _ _ _ _ e hdb hbegin hl hc]
        exact hpost2 _ _
      | none =>
        rw [issue_success _ _ _ _ _ hdb hbegin hl hc]
        exact hpost2 _ _

/-- Witness of C2: in `failingEnv` the second statement fails at `Exec`; the
first statement is prepared and executed, the second is prepared and its
`Exec` fails, then only `Rollback` follows. -/
theorem C2_trace_shape_witness :
    failingEnv.Role demoReq.name = Except.ok (some demoRole) ∧
    failingEnv.Lease = Except.ok none ∧
    pathRoleCreateRead failingEnv demoReq =
      ⟨Outcome.returned none (some ⟨lit "permission denied"⟩),
        preLoop demoReq ++
          okEvents ([lit "CREATE USER \x7b\x7bname\x7d\x7d"].map
            (fun s => failingEnv.Query s (bindingsOf failingEnv demoReq (effectiveLease none)))) ++
          [Event.prepare Handle.conn
            (failingEnv.Query (lit "GRANT BAD_PERMISSION TO \x7b\x7bname\x7d\x7d")
              (bindingsOf failingEnv demoReq (effectiveLease none))) true,
           Event.exec Handle.conn
            (failingEnv.Query (lit "GRANT BAD_PERMISSION TO \x7b\x7bname\x7d\x7d")
              (bindingsOf failingEnv demoReq (effectiveLease none))) false,
           Event.rollback]⟩ :=
  ⟨rfl, rfl,
   ((C2_trace_shape failingEnv demoReq demoRole none rfl rfl).2.2 rfl rfl).2.1
     [lit "CREATE USER \x7b\x7bname\x7d\x7d"]
     (lit "GRANT BAD_PERMISSION TO \x7b\x7bname\x7d\x7d") [] ⟨lit "permission denied"⟩
     (by decide)
     (by intro j hj
         have hj0 : j = 0 := by simpa using hj
         subst hj0
         exact ⟨rfl, rfl⟩)
     rfl rfl⟩

/-! ## Texts prepared and executed -/

theorem preparedTexts_append (a b : List Event) :
    preparedTexts (a ++ b) = preparedTexts a ++ preparedTexts b := by
  induction a with
  | nil => rfl
  | cons ev rest ih => cases ev <;> simp [preparedTexts, ih]

theorem executedTexts_append (a b : List Event) :
    executedTexts (a ++ b) = executedTexts a ++ executedTexts b := by
  induction a with
  | nil => rfl
  | cons ev rest ih => cases ev <;> simp [executedTexts, ih]

theorem preparedTexts_okEvents (l : List GoString) : preparedTexts (okEvents l) = l := by
  induction l with
  | nil => rfl
  | cons q rest ih => simp [okEvents, preparedTexts, ih]

theorem executedTexts_okEvents (l : List GoString) : executedTexts (okEvents l) = l := by
  induction l with
  | nil => rfl
  | cons q rest ih => simp [okEvents, executedTexts, ih]

theorem handler_success (w : Env) (req : Request) (role : RoleEntry)
    (stored : Option ConfigLease)
    (hRole : w.Role req.name = Except.ok (some role))
    (hLease : w.Lease = Except.ok stored)
    (hdb : w.dbErr = none) (hbegin : w.beginErr = none)
    (hall : ∀ j, j < (w.SplitSQL role.SQL).length → stmtOk w j)
    (hc : w.commitErr = none) :
    pathRoleCreateRead w req =
      ⟨Outcome.returned
          (some (secretResponse (usernameOf w req) w.uuid2 (effectiveLease stored).Lease)) none,
        preLoop req ++
          okEvents ((w.SplitSQL role.SQL).map
            (fun s => w.Query s (bindingsOf w req (effectiveLease stored)))) ++
          [Event.commit true, Event.rollback]⟩ := by
  have hloop := execLoop_all_ok w (bindingsOf w req (effectiveLease stored))
    (w.SplitSQL role.SQL) 0 (all_ok_zero w _ hall)
  have hb : bindings (usernameOf w req) w.uuid2 (expirationOf w (effectiveLease stored)) =
      bindingsOf w req (effectiveLease stored) := rfl
  have h2 : (execLoop w (bindings (usernameOf w req) w.uuid2
      (expirationOf w (effectiveLease stored))) 0 (w.SplitSQL role.SQL)).2 = none := by
    rw [hb, hloop]
  rw [handler_issue w req role stored hRole hLease, issue_success _ _ _ _ _ hdb hbegin h2 hc,
    hb, hloop]
  simp [preLoop]

theorem prepared_on_success (w : Env) (req : Request) (role : RoleEntry)
    (stored : Option ConfigLease)
    (hRole : w.Role req.name = Except.ok (some role))
    (hLease : w.Lease = Except.ok stored)
    (hdb : w.dbErr = none) (hbegin : w.beginErr = none)
    (hall : ∀ j, j < (w.SplitSQL role.SQL).length → stmtOk w j)
    (hc : w.commitErr = none) :
    preparedTexts (pathRoleCreateRead w req).trace =
      (w.SplitSQL role.SQL).map (fun s => w.Query s (bindingsOf w req (effectiveLease stored))) := by
  rw [handler_success w req role stored hRole hLease hdb hbegin hall hc]
  simp only [preparedTexts_append, preparedTexts_okEvents]
  simp [preLoop, preIssue, preparedTexts]

/-- C10: on a run in which every store call succeeds, the texts handed to
`Prepare`, and likewise those executed, are the statements of
`SplitSQL(role.SQL)` in their order, each rendered by `Query` under the one
binding map of name, password and expiration. -/
theorem C10_declaration_order (w : Env) (req : Request) (role : RoleEntry)
    (stored : Option ConfigLease)
    (hRole : w.Role req.name = Except.ok (some role))
    (hLease : w.Lease = Except.ok stored)
    (hdb : w.dbErr = none) (hbegin : w.beginErr = none)
    (hall : ∀ j, j < (w.SplitSQL role.SQL).length → stmtOk w j)
    (hc : w.commitErr = none) :
    preparedTexts (pathRoleCreateRead w req).trace =
      (w.SplitSQL role.SQL).map (fun s => w.Query s
        [(lit "name", usernameOf w req), (lit "password", w.uuid2),
         (lit "expiration", expirationOf w (effectiveLease stored))]) ∧
    executedTexts (pathRoleCreateRead w req).trace =
      (w.SplitSQL role.SQL).map (fun s => w.Query s
        [(lit "name", usernameOf w req), (lit "password", w.uuid2),
         (lit "expiration", expirationOf w (effectiveLease stored))]) := by
  rw [handler_success w req role stored hRole hLease hdb hbegin hall hc]
  simp only [preparedTexts_append, executedTexts_append, preparedTexts_okEvents,
    executedTexts_okEvents]
  constructor
  · simp [preLoop, preIssue, preparedTexts, bindingsOf, bindings]
  · simp [preLoop, preIssue, executedTexts, bindingsOf, bindings]

/-- Witness of C10: the two statements of the role `demo` in `demoEnv`. -/
theorem C10_declaration_order_witness :
    preparedTexts (pathRoleCreateRead demoEnv demoReq).trace =
      [lit "CREATE USER token-6ba7b810-9dad-11d1-80b4-00c04fd430c8",
       lit "GRANT BAD_PERMISSION TO token-6ba7b810-9dad-11d1-80b4-00c04fd430c8"] :=
  (C10_declaration_order demoEnv demoReq demoRole none rfl rfl rfl rfl
    (fun _ _ => ⟨rfl, rfl⟩) rfl).1.trans (by decide)

/-! ## Texts prepared on any run -/

theorem preparedTexts_execLoop (w : Env) (b : GoMap) :
    ∀ (qs : List GoString) (i : Nat),
      preparedTexts (execLoop w b i qs).1 =
        (qs.map (fun s => w.Query s b)).take (loopCount w i qs.length) := by
  intro qs
  induction qs with
  | nil => intro i; simp [execLoop, preparedTexts, loopCount]
  | cons q rest ih =>
    intro i
    cases hp : w.prepareErr i with
    | some e =>
      rw [execLoop_prepare_fails w b i q rest e hp]
      simp [preparedTexts, loopCount, hp]
    | none =>
      cases he : w.execErr i with
      | some e =>
        rw [execLoop_exec_fails w b i q rest e hp he]
        simp [preparedTexts, loopCount, hp, he]
      | none =>
        rw [execLoop_step_ok w b i q rest ⟨hp, he⟩]
        simp [preparedTexts, loopCount, hp, he, ih (i + 1)]

theorem preparedTexts_preIssue (req : Request) (evs : List Event)
    (h : preparedTexts evs = []) :
    preparedTexts (preIssue req ++ evs) = [] := by
  rw [preparedTexts_append, h]
  rfl

theorem issue_preparedTexts (w : Env) (role : RoleEntry) (lease : ConfigLease)
    (username : GoString) (req : Request) :
    preparedTexts (issue w role lease username (preIssue req)).trace =
      ((w.SplitSQL role.SQL).map
        (fun s => w.Query s (bindings username w.uuid2 (expirationOf w lease)))).take
        (preparedCount w (w.SplitSQL role.SQL).length) := by
  cases hdb : w.dbErr with
  | some e =>
    rw [issue_db_error _ _ _ _ _ e hdb, preparedTexts_preIssue req [Event.dbOpen false] rfl]
    simp [preparedCount, hdb]
  | none =>
    cases hb : w.beginErr with
    | some e =>
      rw [issue_begin_error _ _ _ _ _ e hdb hb,
        preparedTexts_preIssue req [Event.dbOpen true, Event.begin false] rfl]
      simp [preparedCount, hdb, hb]
    | none =>
      have hcount : preparedCount w (w.SplitSQL role.SQL).length =
          loopCount w 0 (w.SplitSQL role.SQL).length := by
        simp [preparedCount, hdb, hb]
      have hloop := preparedTexts_execLoop w (bindings username w.uuid2 (expirationOf w lease))
        (w.SplitSQL role.SQL) 0
      have hpre : preparedTexts (preIssue req ++ [Event.dbOpen true, Event.begin true]) = [] :=
        preparedTexts_preIssue req _ rfl
      rw [hcount, ← hloop]
      cases hl : (execLoop w (bindings username w.uuid2 (expirationOf w lease)) 0
          (w.SplitSQL role.SQL)).2 with
      | some e =>
        rw [issue_loop_error _ _ _ _ _ e hdb hb hl]
        simp only [preparedTexts_append, hpre, List.nil_append]
        simp [preparedTexts]
      | none =>
        cases hc : w.commitErr with
        | some e =>
          rw [issue_commit_error _ _ _ _ _ e hdb hb hl hc]
          simp only [preparedTexts_append, hpre, List.nil_append]
          simp [preparedTexts]
        | none =>
          rw [issue_success _ _ _ _ _ hdb hb hl hc]
          simp only [preparedTexts_append, hpre, List.nil_append]
          simp [preparedTexts]

theorem lease_spelled_out (stored : Option ConfigLease) :
    (effectiveLease stored).Lease =
      (match stored with
       | none => 3600000000000
       | some l => l.Lease) := by
  cases stored with
  | none => simp [effectiveLease, Hour]
  | some l => rfl

/-- On every run that read role and lease, the texts handed to `Prepare` are
the first `preparedCount` statements of the role, each rendered by `Query`
under the binding map of the principal, the second UUID and the formatted
instant `now + leaseOffset L`. -/
theorem handler_preparedTexts (w : Env) (req : Request) (role : RoleEntry)
    (stored : Option ConfigLease) (L : Int)
    (hL : L = (match stored with
      | none => 3600000000000
      | some l => l.Lease))
    (hRole : w.Role req.name = Except.ok (some role))
    (hLease : w.Lease = Except.ok stored) :
    preparedTexts (pathRoleCreateRead w req).trace =
      ((w.SplitSQL role.SQL).map (fun s => w.Query s
        [(lit "name", (req.DisplayName.take 26 ++ lit "-" ++ w.uuid1).take 63),
         (lit "password", w.uuid2),
         (lit "expiration", w.formatTime (w.now + leaseOffset L))])).take
        (preparedCount w (w.SplitSQL role.SQL).length) := by
  rw [handler_issue w req role stored hRole hLease, issue_preparedTexts, hL,
    ← lease_spelled_out stored]
  rfl

theorem loopCount_withQuery (w : Env) (Q : GoString → GoMap → GoString) :
    ∀ (n i : Nat), loopCount (withQuery w Q) i n = loopCount w i n := by
  intro n
  induction n with
  | zero => intro i; simp [loopCount]
  | succ k ih =>
    intro i
    simp only [loopCount, ih]
    rfl

theorem preparedCount_withQuery (w : Env) (Q : GoString → GoMap → GoString) (n : Nat) :
    preparedCount (withQuery w Q) n = preparedCount w n := by
  simp only [preparedCount, loopCount_withQuery]
  rfl

theorem execLoop_error_withQuery (w : Env) (Q : GoString → GoMap → GoString)
    (b c : GoMap) :
    ∀ (qs : List GoString) (i : Nat),
      (execLoop (withQuery w Q) b i qs).2 = (execLoop w c i qs).2 := by
  intro qs
  induction qs with
  | nil => intro i; simp [execLoop]
  | cons q rest ih =>
    intro i
    have hp' : (withQuery w Q).prepareErr i = w.prepareErr i := rfl
    have he' : (withQuery w Q).execErr i = w.execErr i := rfl
    cases hp : w.prepareErr i with
    | some e =>
      rw [execLoop_prepare_fails w c i q rest e hp,
        execLoop_prepare_fails (withQuery w Q) b i q rest e (hp'.trans hp)]
    | none =>
      cases he : w.execErr i with
      | some e =>
        rw [execLoop_exec_fails w c i q rest e hp he,
          execLoop_exec_fails (withQuery w Q) b i q rest e (hp'.trans hp) (he'.trans he)]
      | none =>
        rw [execLoop_step_ok w c i q rest ⟨hp, he⟩,
          execLoop_step_ok (withQuery w Q) b i q rest ⟨hp'.trans hp, he'.trans he⟩]
        exact ih (i + 1)

theorem issue_outcome_withQuery (w : Env) (Q : GoString → GoMap → GoString)
    (role : RoleEntry) (lease : ConfigLease) (username : GoString) (pre pre2 : List Event) :
    (issue (withQuery w Q) role lease username pre).outcome =
      (issue w role lease username pre2).outcome := by
  have hS : (withQuery w Q).SplitSQL = w.SplitSQL := rfl
  have hU : (withQuery w Q).uuid2 = w.uuid2 := rfl
  have hloop := execLoop_error_withQuery w Q
    (bindings username (withQuery w Q).uuid2 (expirationOf (withQuery w Q) lease))
    (bindings username w.uuid2 (expirationOf w lease)) (w.SplitSQL role.SQL) 0
  cases hdb : w.dbErr with
  | some e =>
    rw [issue_db_error w _ _ _ _ e hdb, issue_db_error (withQuery w Q) _ _ _ _ e hdb]
  | none =>
    cases hb : w.beginErr with
    | some e =>
      rw [issue_begin_error w _ _ _ _ e hdb hb,
        issue_begin_error (withQuery w Q) _ _ _ _ e hdb hb]
    | none =>
      cases hl : (execLoop w (bindings username w.uuid2 (expirationOf w lease)) 0
          (w.SplitSQL role.SQL)).2 with
      | some e =>
        rw [hl] at hloop
        rw [issue_loop_error w _ _ _ _ e hdb hb hl,
          issue_loop_error (withQuery w Q) _ _ _ _ e hdb hb hloop]
      | none =>
        rw [hl] at hloop
        cases hc : w.commitErr with
        | some e =>
          rw [issue_commit_error w _ _ _ _ e hdb hb hl hc,
            issue_commit_error (withQuery w Q) _ _ _ _ e hdb hb hloop hc]
        | none =>
          rw [issue_success w _ _ _ _ hdb hb hl hc,
            issue_success (withQuery w Q) _ _ _ _ hdb hb hloop hc]
          rfl

/-! ## Lease and envelope -/

theorem issue_trace_proceeds (w : Env) (role : RoleEntry) (lease : ConfigLease)
    (username : GoString) (pre : List Event) :
    ∃ ok rest, (issue w role lease username pre).trace = pre ++ Event.dbOpen ok :: rest := by
  cases hdb : w.dbErr with
  | some e => exact ⟨false, [], by rw [issue_db_error _ _ _ _ _ e hdb]⟩
  | none =>
    cases hb : w.beginErr with
    | some e => exact ⟨true, [Event.begin false], by rw [issue_begin_error _ _ _ _ _ e hdb hb]⟩
    | none =>
      cases hl : (execLoop w (bindings username w.uuid2 (expirationOf w lease)) 0
          (w.SplitSQL role.SQL)).2 with
      | some e =>
        exact ⟨true, _, by
          rw [issue_loop_error _ _ _ _ _ e hdb hb hl]
          simp only [List.append_assoc, List.cons_append, List.nil_append]
          rfl⟩
      | none =>
        cases hc : w.commitErr with
        | some e =>
          exact ⟨true, _, by
            rw [issue_commit_error _ _ _ _ _ e hdb hb hl hc]
            simp only [List.append_assoc, List.cons_append, List.nil_append]
            rfl⟩
        | none =>
          exact ⟨true, _, by
            rw [issue_success _ _ _ _ _ hdb hb hl hc]
            simp only [List.append_assoc, List.cons_append, List.nil_append]
            rfl⟩

/-- C7: for a request whose role exists, a missing lease policy does not end
the call (the handler goes on to obtain the connection), and when the
connection, `Begin`, every statement and `Commit` succeed the lease of the
returned secret is one hour when no policy is stored and the stored policy's
`Lease` otherwise. -/
theorem C7_lease_fallback (w : Env) (req : Request) (role : RoleEntry)
    (stored : Option ConfigLease)
    (hRole : w.Role req.name = Except.ok (some role))
    (hLease : w.Lease = Except.ok stored) :
    (∃ ok rest, (pathRoleCreateRead w req).trace =
      [Event.roleRead req.name true, Event.leaseRead true] ++ Event.dbOpen ok :: rest) ∧
    (w.dbErr = none → w.beginErr = none →
      (∀ j, j < (w.SplitSQL role.SQL).length → stmtOk w j) → w.commitErr = none →
      ∃ data internal, (pathRoleCreateRead w req).outcome =
        Outcome.returned (some (Response.secret data internal
          (match stored with
           | none => 3600000000000
           | some l => l.Lease))) none) := by
  constructor
  · rw [handler_issue w req role stored hRole hLease]
    exact issue_trace_proceeds _ _ _ _ _
  · intro hdb hbegin hall hc
    rw [handler_success w req role stored hRole hLease hdb hbegin hall hc]
    refine ⟨[(lit "username", usernameOf w req), (lit "password", w.uuid2)],
      [(lit "username", usernameOf w req)], ?_⟩
    cases stored with
    | none => simp [secretResponse, effectiveLease, Hour]
    | some l => simp [secretResponse, effectiveLease]

/-- Witness of C7: `demoEnv` stores no lease policy and the issued secret
carries a lease of one hour. -/
theorem C7_lease_fallback_witness :
    demoEnv.Role demoReq.name = Except.ok (some demoRole) ∧
    demoEnv.Lease = Except.ok none ∧
    ∃ data internal, (pathRoleCreateRead demoEnv demoReq).outcome =
      Outcome.returned (some (Response.secret data internal 3600000000000)) none :=
  ⟨rfl, rfl,
   (C7_lease_fallback demoEnv demoReq demoRole none rfl rfl).2 rfl rfl
     (fun _ _ => ⟨rfl, rfl⟩) rfl⟩

theorem issue_secret_inv (w : Env) (role : RoleEntry) (lease : ConfigLease)
    (username : GoString) (pre : List Event) (data internal : GoMap) (d : Duration)
    (h : (issue w role lease username pre).outcome =
      Outcome.returned (some (Response.secret data internal d)) none) :
    w.dbErr = none ∧ w.beginErr = none ∧
    (execLoop w (bindings username w.uuid2 (expirationOf w lease)) 0
      (w.SplitSQL role.SQL)).2 = none ∧ w.commitErr = none := by
  cases hdb : w.dbErr with
  | some e => rw [issue_db_error _ _ _ _ _ e hdb] at h; simp at h
  | none =>
    cases hb : w.beginErr with
    | some e => rw [issue_begin_error _ _ _ _ _ e hdb hb] at h; simp at h
    | none =>
      cases hl : (execLoop w (bindings username w.uuid2 (expirationOf w lease)) 0
          (w.SplitSQL role.SQL)).2 with
      | some e => rw [issue_loop_error _ _ _ _ _ e hdb hb hl] at h; simp at h
      | none =>
        cases hc : w.commitErr with
        | some e => rw [issue_commit_error _ _ _ _ _ e hdb hb hl hc] at h; simp at h
        | none => exact ⟨rfl, rfl, rfl, rfl⟩

/-- C8: when the handler returns a secret response, its public data is
exactly username and password, its internal data is exactly the username
(no password among the internal fields), the username is the principal bound
to `name` in every rendered statement, the password is the value bound to
`password`, and the lease is the policy duration itself (one hour when no
policy is stored, the stored `Lease` otherwise) while the `expiration`
binding is formatted from the padded offset. -/
theorem C8_secret_envelope (w : Env) (req : Request) (data internal : GoMap) (L : Duration)
    (h : (pathRoleCreateRead w req).outcome =
      Outcome.returned (some (Response.secret data internal L)) none) :
    ∃ role stored username,
      w.Role req.name = Except.ok (some role) ∧ w.Lease = Except.ok stored ∧
      genUsername req.DisplayName w.uuid1 = some username ∧
      data = [(lit "username", username), (lit "password", w.uuid2)] ∧
      internal = [(lit "username", username)] ∧
      (∀ kv, kv ∈ internal → kv.1 ≠ lit "password") ∧
      L = (match stored with
        | none => 3600000000000
        | some l => l.Lease) ∧
      preparedTexts (pathRoleCreateRead w req).trace =
        (w.SplitSQL role.SQL).map (fun s => w.Query s
          [(lit "name", username), (lit "password", w.uuid2),
           (lit "expiration", w.formatTime (w.now + leaseOffset L))]) := by
  cases hR : w.Role req.name with
  | error err => rw [handler_role_error w req err hR] at h; simp at h
  | ok r =>
    cases r with
    | none => rw [handler_role_missing w req hR] at h; simp at h
    | some role =>
      cases hL : w.Lease with
      | error err => rw [handler_lease_error w req role err hR hL] at h; simp at h
      | ok stored =>
        have h2 := h
        rw [handler_issue w req role stored hR hL] at h2
        obtain ⟨hdb, hbegin, hloop, hc⟩ := issue_secret_inv _ _ _ _ _ _ _ _ h2
        have hall : ∀ j, j < (w.SplitSQL role.SQL).length → stmtOk w j := by
          have := (execLoop_no_error_iff w _ (w.SplitSQL role.SQL) 0).1 hloop
          simpa using this
        have hs := handler_success w req role stored hR hL hdb hbegin hall hc
        rw [hs] at h
        simp only [secretResponse, Outcome.returned.injEq, Option.some.injEq,
          Response.secret.injEq, and_true] at h
        obtain ⟨hdata, hint, hlease⟩ := h
        refine ⟨role, stored, usernameOf w req, rfl, rfl, ?_, hdata.symm, hint.symm, ?_,
          hlease.symm.trans (lease_spelled_out stored), ?_⟩
        · rw [genUsername_eq]
          rfl
        · intro kv hkv
          rw [← hint] at hkv
          simp only [List.mem_singleton] at hkv
          rw [hkv]
          show lit "username" ≠ lit "password"
          decide
        · have := (prepared_on_success w req role stored hR hL hdb hbegin hall hc)
          rw [this, ← hlease]
          rfl

/-- Witness of C8: the secret returned in `demoEnv`. -/
theorem C8_secret_envelope_witness :
    ∃ role stored username,
      demoEnv.Role demoReq.name = Except.ok (some role) ∧ demoEnv.Lease = Except.ok stored ∧
      genUsername demoReq.DisplayName demoEnv.uuid1 = some username ∧
      [(lit "username", lit "token-6ba7b810-9dad-11d1-80b4-00c04fd430c8"),
        (lit "password", lit "6ba7b811-9dad-11d1-80b4-00c04fd430c8")] =
        [(lit "username", username), (lit "password", demoEnv.uuid2)] ∧
      [(lit "username", lit "token-6ba7b810-9dad-11d1-80b4-00c04fd430c8")] =
        [(lit "username", username)] ∧
      (∀ kv, kv ∈ [(lit "username", lit "token-6ba7b810-9dad-11d1-80b4-00c04fd430c8")] →
        kv.1 ≠ lit "password") ∧
      3600000000000 = (match stored with
        | none => 3600000000000
        | some l => l.Lease) ∧
      preparedTexts (pathRoleCreateRead demoEnv demoReq).trace =
        (demoEnv.SplitSQL role.SQL).map (fun s => demoEnv.Query s
          [(lit "name", username), (lit "password", demoEnv.uuid2),
           (lit "expiration", demoEnv.formatTime (demoEnv.now + leaseOffset 3600000000000))]) :=
  C8_secret_envelope demoEnv demoReq
    [(lit "username", lit "token-6ba7b810-9dad-11d1-80b4-00c04fd430c8"),
      (lit "password", lit "6ba7b811-9dad-11d1-80b4-00c04fd430c8")]
    [(lit "username", lit "token-6ba7b810-9dad-11d1-80b4-00c04fd430c8")]
    3600000000000 (by decide)

/-! ## Bindings and the caller's display name -/

/-- C9 (as amended): for a request whose role exists, the values the handler
binds are: for `name` the first 26 bytes of the caller's display name, a dash
and the first generated UUID, cut to 63 bytes; for `password` the second
generated UUID; for `expiration` the formatted instant `now + leaseOffset L`,
`L` being one hour when no policy is stored and the stored `Lease` otherwise.
Two runs for the same role whose display names agree on their first 26 bytes
hand the same statement templates with this same binding map to the
rendering function, whatever that function does in each run, prepare the
same number of statements and end with the same outcome. -/
theorem C9_bindings_depend_on_display_name_only_by_26_bytes (w : Env) (req1 req2 : Request)
    (role : RoleEntry) (stored : Option ConfigLease) (L : Int)
    (hL : L = (match stored with
      | none => 3600000000000
      | some l => l.Lease))
    (hRole : w.Role req1.name = Except.ok (some role))
    (hLease : w.Lease = Except.ok stored)
    (hname : req1.name = req2.name)
    (hd : req1.DisplayName.take 26 = req2.DisplayName.take 26) :
    ∃ k, ∀ Q1 Q2 : GoString → GoMap → GoString,
      preparedTexts (pathRoleCreateRead (withQuery w Q1) req1).trace =
        ((w.SplitSQL role.SQL).map (fun s => Q1 s
          [(lit "name", (req1.DisplayName.take 26 ++ lit "-" ++ w.uuid1).take 63),
           (lit "password", w.uuid2),
           (lit "expiration", w.formatTime (w.now + leaseOffset L))])).take k ∧
      preparedTexts (pathRoleCreateRead (withQuery w Q2) req2).trace =
        ((w.SplitSQL role.SQL).map (fun s => Q2 s
          [(lit "name", (req1.DisplayName.take 26 ++ lit "-" ++ w.uuid1).take 63),
           (lit "password", w.uuid2),
           (lit "expiration", w.formatTime (w.now + leaseOffset L))])).take k ∧
      (pathRoleCreateRead (withQuery w Q1) req1).outcome =
        (pathRoleCreateRead (withQuery w Q2) req2).outcome := by
  refine ⟨preparedCount w (w.SplitSQL role.SQL).length, ?_⟩
  intro Q1 Q2
  have hRole2 : w.Role req2.name = Except.ok (some role) := by rw [← hname]; exact hRole
  have hu : usernameOf w req2 = usernameOf w req1 := by simp [usernameOf, hd]
  refine ⟨?_, ?_, ?_⟩
  · have h := handler_preparedTexts (withQuery w Q1) req1 role stored L hL hRole hLease
    rw [preparedCount_withQuery] at h
    exact h
  · have h := handler_preparedTexts (withQuery w Q2) req2 role stored L hL hRole2 hLease
    rw [preparedCount_withQuery, ← hd] at h
    exact h
  · rw [handler_issue (withQuery w Q1) req1 role stored hRole hLease,
      handler_issue (withQuery w Q2) req2 role stored hRole2 hLease]
    have h1 := issue_outcome_withQuery w Q1 role (effectiveLease stored) (usernameOf w req1)
      (preIssue req1) (preIssue req1)
    have h2 := issue_outcome_withQuery w Q2 role (effectiveLease stored) (usernameOf w req1)
      (preIssue req2) (preIssue req1)
    have e1 : usernameOf (withQuery w Q1) req1 = usernameOf w req1 := rfl
    have e2 : usernameOf (withQuery w Q2) req2 = usernameOf w req1 := hu
    rw [e1, e2, h1, h2]

/-- Witness of C9 (as amended): two display names of more than 26 bytes with
the same first 26 bytes, in `demoEnv`. -/
theorem C9_bindings_witness :
    ∃ k, ∀ Q1 Q2 : GoString → GoMap → GoString,
      preparedTexts (pathRoleCreateRead (withQuery demoEnv Q1)
          ⟨lit "demo", lit "abcdefghijklmnopqrstuvwxyz-one"⟩).trace =
        ((demoEnv.SplitSQL demoRole.SQL).map (fun s => Q1 s
          [(lit "name", ((lit "abcdefghijklmnopqrstuvwxyz-one").take 26 ++ lit "-" ++
              demoEnv.uuid1).take 63),
           (lit "password", demoEnv.uuid2),
           (lit "expiration",
              demoEnv.formatTime (demoEnv.now + leaseOffset 3600000000000))])).take k ∧
      preparedTexts (pathRoleCreateRead (withQuery demoEnv Q2)
          ⟨lit "demo", lit "abcdefghijklmnopqrstuvwxyz-two"⟩).trace =
        ((demoEnv.SplitSQL demoRole.SQL).map (fun s => Q2 s
          [(lit "name", ((lit "abcdefghijklmnopqrstuvwxyz-one").take 26 ++ lit "-" ++
              demoEnv.uuid1).take 63),
           (lit "password", demoEnv.uuid2),
           (lit "expiration",
              demoEnv.formatTime (demoEnv.now + leaseOffset 3600000000000))])).take k ∧
      (pathRoleCreateRead (withQuery demoEnv Q1)
          ⟨lit "demo", lit "abcdefghijklmnopqrstuvwxyz-one"⟩).outcome =
        (pathRoleCreateRead (withQuery demoEnv Q2)
          ⟨lit "demo", lit "abcdefghijklmnopqrstuvwxyz-two"⟩).outcome :=
  C9_bindings_depend_on_display_name_only_by_26_bytes demoEnv
    ⟨lit "demo", lit "abcdefghijklmnopqrstuvwxyz-one"⟩
    ⟨lit "demo", lit "abcdefghijklmnopqrstuvwxyz-two"⟩ demoRole none 3600000000000
    rfl rfl rfl rfl (by decide)

/-- C9 as stated fails: two requests that differ only in the caller's display
name, in the same environment, hand different statement texts to `Prepare`;
the display name is part of the value bound to `name`. -/
theorem C9_counterexample :
    preparedTexts (pathRoleCreateRead demoEnv ⟨lit "demo", lit "alice"⟩).trace ≠
      preparedTexts (pathRoleCreateRead demoEnv ⟨lit "demo", lit "bob"⟩).trace ∧
    preparedTexts (pathRoleCreateRead demoEnv ⟨lit "demo", lit "alice"⟩).trace =
      [lit "CREATE USER alice-6ba7b810-9dad-11d1-80b4-00c04fd430c8",
       lit "GRANT BAD_PERMISSION TO alice-6ba7b810-9dad-11d1-80b4-00c04fd430c8"] := by
  decide

/-! ## Atomicity -/

theorem Store.run_append (s : Store) (a b : List Event) :
    Store.run s (a ++ b) = Store.run (Store.run s a) b := by
  simp [Store.run, List.foldl_append]

theorem Store.run_okEvents (l : List GoString) :
    ∀ s : Store, Store.run s (okEvents l) = ⟨s.committed ++ l, s.pending⟩ := by
  induction l with
  | nil => intro s; simp [okEvents, Store.run]
  | cons q rest ih =>
    intro s
    have hstep : Store.run s (okEvents (q :: rest)) =
        Store.run ⟨s.committed ++ [q], s.pending⟩ (okEvents rest) := by
      simp [okEvents, Store.run, Store.step]
    rw [hstep, ih]
    simp

theorem Store.run_preLoop (req : Request) : Store.run Store.empty (preLoop req) = Store.empty := by
  simp [Store.run, preLoop, preIssue, Store.step, Store.empty]

/-- In every environment, when the statements before the one of index
`front.length` go through and that statement fails at `Exec`, the store holds
the effects of all the statements before it once the handler has returned. -/
theorem effects_stay_after_failed_exec (w : Env) (req : Request) (role : RoleEntry)
    (stored : Option ConfigLease) (front back : List GoString) (q : GoString) (e : GoError)
    (hRole : w.Role req.name = Except.ok (some role))
    (hLease : w.Lease = Except.ok stored)
    (hdb : w.dbErr = none) (hbegin : w.beginErr = none)
    (hsplit : w.SplitSQL role.SQL = front ++ q :: back)
    (hfront : ∀ j, j < front.length → stmtOk w j)
    (hp : w.prepareErr front.length = none)
    (he : w.execErr front.length = some e) :
    (Store.run Store.empty (pathRoleCreateRead w req).trace).committed =
      front.map (fun s => w.Query s (bindingsOf w req (effectiveLease stored))) := by
  have hloop := execLoop_append w (bindingsOf w req (effectiveLease stored)) (q :: back)
    front 0 (all_ok_zero w _ hfront)
  rw [Nat.zero_add, execLoop_exec_fails _ _ _ q back e hp he, ← hsplit] at hloop
  have hb : bindings (usernameOf w req) w.uuid2 (expirationOf w (effectiveLease stored)) =
      bindingsOf w req (effectiveLease stored) := rfl
  have h2 : (execLoop w (bindings (usernameOf w req) w.uuid2
      (expirationOf w (effectiveLease stored))) 0 (w.SplitSQL role.SQL)).2 = some e := by
    rw [hb, hloop]
  rw [handler_issue w req role stored hRole hLease,
    issue_loop_error _ _ _ _ _ e hdb hbegin h2, hb, hloop]
  have hpre : preIssue req ++ [Event.dbOpen true, Event.begin true] = preLoop req := rfl
  rw [hpre]
  simp only [Store.run_append, Store.run_preLoop, Store.run_okEvents]
  simp [Store.run, Store.step, Store.empty]

/-- C1 fails on the code: in `failingEnv` the second statement of the role
fails at `Exec`, the handler returns that error, and the effect of the first
statement is committed in the store afterwards, because the statements go
through the connection handle and the rollback of the transaction does not
reach them. -/
theorem C1_first_statement_stays_committed :
    2 ≤ (failingEnv.SplitSQL demoRole.SQL).length ∧
    (pathRoleCreateRead failingEnv demoReq).outcome =
      Outcome.returned none (some ⟨lit "permission denied"⟩) ∧
    (Store.run Store.empty (pathRoleCreateRead failingEnv demoReq).trace).committed =
      [lit "CREATE USER token-6ba7b810-9dad-11d1-80b4-00c04fd430c8"] ∧
    rollbackCalled (pathRoleCreateRead failingEnv demoReq).trace = true := by
  decide

/-! ## Expiration padding -/

theorem bitLenAux_zero (fuel : Nat) : bitLenAux fuel 0 = 0 := by
  cases fuel <;> simp [bitLenAux]

theorem bitLenAux_bounds : ∀ (fuel n : Nat), n ≤ fuel →
    n < 2 ^ bitLenAux fuel n ∧ (n ≠ 0 → 2 ^ (bitLenAux fuel n - 1) ≤ n) := by
  intro fuel
  induction fuel with
  | zero =>
    intro n hn
    have : n = 0 := by omega
    subst this
    simp [bitLenAux]
  | succ k ih =>
    intro n hn
    by_cases h0 : n = 0
    · subst h0
      simp [bitLenAux]
    · have hhalf : n / 2 ≤ k := by omega
      obtain ⟨hlt, hge⟩ := ih (n / 2) hhalf
      simp only [bitLenAux, h0, if_false]
      constructor
      · rw [pow_succ]
        omega
      · intro _
        simp only [Nat.add_sub_cancel]
        by_cases h1 : n / 2 = 0
        · rw [h1, bitLenAux_zero]
          simp
          omega
        · have h2 := hge h1
          have hpos : 0 < bitLenAux k (n / 2) := by
            by_contra hc
            have hz : bitLenAux k (n / 2) = 0 := by omega
            rw [hz] at hlt
            simp at hlt
            exact h1 hlt
          have : 2 ^ bitLenAux k (n / 2) = 2 ^ (bitLenAux k (n / 2) - 1) * 2 := by
            rw [← pow_succ]
            congr 1
            omega
          rw [this]
          omega

theorem lt_two_pow_bitLen (n : Nat) : n < 2 ^ bitLen n :=
  (bitLenAux_bounds n n (le_refl n)).1

theorem two_pow_bitLen_pred_le (n : Nat) (h : n ≠ 0) : 2 ^ (bitLen n - 1) ≤ n :=
  (bitLenAux_bounds n n (le_refl n)).2 h

theorem bitLen_le_of_lt (n k : Nat) (h : n < 2 ^ k) : bitLen n ≤ k := by
  by_cases h0 : n = 0
  · subst h0
    simp [bitLen, bitLenAux_zero]
  · have h1 := two_pow_bitLen_pred_le n h0
    have h2 : 2 ^ (bitLen n - 1) < 2 ^ k := lt_of_le_of_lt h1 h
    have h3 := (Nat.pow_lt_pow_iff_right (by norm_num : 1 < 2)).1 h2
    omega

theorem roundHalfEven_near (n d : Nat) (hd : 0 < d) :
    2 * (roundHalfEven n d * d) ≤ 2 * n + d ∧ 2 * n ≤ 2 * (roundHalfEven n d * d) + d := by
  have hdiv := Nat.div_add_mod n d
  have hmod := Nat.mod_lt n hd
  have hq : d * (n / d) = (n / d) * d := Nat.mul_comm _ _
  unfold roundHalfEven
  simp only
  split_ifs <;> constructor <;> (try simp only [Nat.add_mul, Nat.one_mul]) <;> omega

theorem roundHalfEven_one (n : Nat) : roundHalfEven n 1 = n := by
  simp [roundHalfEven, Nat.mod_one]

theorem roundSig53_dvd (n : Nat) : 2 ^ (bitLen n - 53) ∣ roundSig53 n :=
  Dvd.intro_left _ rfl

theorem roundSig53_of_lt (n : Nat) (h : n < 2 ^ 53) : roundSig53 n = n := by
  have hb := bitLen_le_of_lt n 53 h
  have hs : bitLen n - 53 = 0 := by omega
  simp [roundSig53, hs, roundHalfEven_one]

theorem roundSig53_ge_of_dvd (n Y : Nat) (hdvd : 2 ^ (bitLen n - 53) ∣ Y) (hle : Y ≤ n) :
    Y ≤ roundSig53 n := by
  obtain ⟨y, rfl⟩ := hdvd
  have hpos : 0 < 2 ^ (bitLen n - 53) := Nat.two_pow_pos _
  have hnear := (roundHalfEven_near n (2 ^ (bitLen n - 53)) hpos).2
  unfold roundSig53
  simp only
  generalize roundHalfEven n (2 ^ (bitLen n - 53)) = R at hnear ⊢
  generalize 2 ^ (bitLen n - 53) = D at hnear hpos hle ⊢
  rw [Nat.mul_comm D y]
  apply Nat.mul_le_mul_right
  by_contra hc
  have hR : R + 1 ≤ y := by omega
  have h1 : (R + 1) * D ≤ y * D := Nat.mul_le_mul_right D hR
  rw [Nat.mul_comm D y] at hle
  rw [Nat.add_mul, Nat.one_mul] at h1
  omega

theorem roundSig53_le_of_dvd (n Y : Nat) (hdvd : 2 ^ (bitLen n - 53) ∣ Y) (hle : n ≤ Y) :
    roundSig53 n ≤ Y := by
  obtain ⟨y, rfl⟩ := hdvd
  have hpos : 0 < 2 ^ (bitLen n - 53) := Nat.two_pow_pos _
  have hnear := (roundHalfEven_near n (2 ^ (bitLen n - 53)) hpos).1
  unfold roundSig53
  simp only
  generalize roundHalfEven n (2 ^ (bitLen n - 53)) = R at hnear ⊢
  generalize 2 ^ (bitLen n - 53) = D at hnear hpos hle ⊢
  rw [Nat.mul_comm D y]
  apply Nat.mul_le_mul_right
  by_contra hc
  have hR : y + 1 ≤ R := by omega
  have h1 : (y + 1) * D ≤ R * D := Nat.mul_le_mul_right D hR
  rw [Nat.mul_comm D y] at hle
  rw [Nat.add_mul, Nat.one_mul] at h1
  omega

theorem shift_le_of_pos (n : Nat) (h : 0 < bitLen n - 53) : 2 ^ (bitLen n - 53) ≤ n := by
  have h0 : n ≠ 0 := by
    intro hz
    subst hz
    simp [bitLen, bitLenAux_zero] at h
  have h1 := two_pow_bitLen_pred_le n h0
  have h2 : 2 ^ (bitLen n - 53) ≤ 2 ^ (bitLen n - 1) :=
    Nat.pow_le_pow_right (by norm_num) (by omega)
  omega

theorem roundSig53_ge_pow (n k : Nat) (h : 2 ^ k ≤ n) : 2 ^ k ≤ roundSig53 n := by
  by_cases hs : bitLen n - 53 ≤ k
  · exact roundSig53_ge_of_dvd n _ (Nat.pow_dvd_pow 2 hs) h
  · have hpos : 0 < bitLen n - 53 := by omega
    have h1 := roundSig53_ge_of_dvd n _ (dvd_refl _) (shift_le_of_pos n hpos)
    have h2 : 2 ^ k ≤ 2 ^ (bitLen n - 53) := Nat.pow_le_pow_right (by norm_num) (by omega)
    omega

theorem roundSig53_le_pow (n k : Nat) (h : n ≤ 2 ^ k) : roundSig53 n ≤ 2 ^ k := by
  by_cases hs : bitLen n - 53 ≤ k
  · exact roundSig53_le_of_dvd n _ (Nat.pow_dvd_pow 2 hs) h
  · have hpos : 0 < bitLen n - 53 := by omega
    have h1 := shift_le_of_pos n hpos
    have h2 : 2 ^ k < 2 ^ (bitLen n - 53) := Nat.pow_lt_pow_right (by norm_num) (by omega)
    omega

theorem ten_tenthSig : 10 * tenthSig = 2 ^ 55 + 2 := by decide

theorem padMagnitude_pos (a : Nat) (h10 : 10 ≤ a) : 1 ≤ padMagnitude a := by
  have ha : 10 ≤ roundSig53 a := by
    by_cases hlt : a < 2 ^ 53
    · rw [roundSig53_of_lt a hlt]
      exact h10
    · have := roundSig53_ge_pow a 53 (by omega)
      have h53 : (2 : Nat) ^ 53 = 9007199254740992 := by norm_num
      omega
  have hP : 2 ^ 55 ≤ roundSig53 a * tenthSig := by
    have hC : tenthSig = 3602879701896397 := rfl
    have h55 : (2 : Nat) ^ 55 = 36028797018963968 := by norm_num
    rw [hC, h55]
    omega
  have hX := roundSig53_ge_pow _ 55 hP
  unfold padMagnitude
  exact (Nat.one_le_div_iff (Nat.two_pow_pos 55)).2 hX

theorem wrap64_of_range (x : Int) (h0 : -(2 ^ 63) ≤ x) (h1 : x < 2 ^ 63) : wrap64 x = x := by
  unfold wrap64
  omega


theorem bitLen_mono (n m : Nat) (h : n ≤ m) : bitLen n ≤ bitLen m :=
  bitLen_le_of_lt n _ (lt_of_le_of_lt h (lt_two_pow_bitLen m))

theorem roundHalfEven_mono (n m d : Nat) (hd : 0 < d) (h : n ≤ m) :
    roundHalfEven n d ≤ roundHalfEven m d := by
  have hq : n / d ≤ m / d := Nat.div_le_div_right h
  have hn := Nat.div_add_mod n d
  have hm := Nat.div_add_mod m d
  have hnr := Nat.mod_lt n hd
  have hmr := Nat.mod_lt m hd
  rcases Nat.lt_or_eq_of_le hq with hlt | heq
  · have h1 : roundHalfEven n d ≤ n / d + 1 := by
      unfold roundHalfEven
      simp only
      split_ifs <;> omega
    have h2 : m / d ≤ roundHalfEven m d := by
      unfold roundHalfEven
      simp only
      split_ifs <;> omega
    omega
  · rw [heq] at hn
    have hr : n % d ≤ m % d := by omega
    unfold roundHalfEven
    simp only
    rw [heq]
    split_ifs <;> omega

theorem roundSig53_mono (n m : Nat) (h : n ≤ m) : roundSig53 n ≤ roundSig53 m := by
  have hb := bitLen_mono n m h
  rcases Nat.lt_or_eq_of_le hb with hlt | heq
  · have h1 : roundSig53 n ≤ 2 ^ bitLen n := roundSig53_le_pow n _ (le_of_lt (lt_two_pow_bitLen n))
    have hm0 : m ≠ 0 := by
      intro hz
      subst hz
      simp [bitLen, bitLenAux_zero] at hlt
    have h2 : 2 ^ (bitLen m - 1) ≤ roundSig53 m :=
      roundSig53_ge_pow m _ (two_pow_bitLen_pred_le m hm0)
    have h3 : 2 ^ bitLen n ≤ 2 ^ (bitLen m - 1) :=
      Nat.pow_le_pow_right (by norm_num) (by omega)
    omega
  · unfold roundSig53
    simp only
    rw [heq]
    exact Nat.mul_le_mul_right _ (roundHalfEven_mono n m _ (Nat.two_pow_pos _) h)

theorem padMagnitude_mono (a b : Nat) (h : a ≤ b) : padMagnitude a ≤ padMagnitude b := by
  unfold padMagnitude
  exact Nat.div_le_div_right
    (roundSig53_mono _ _ (Nat.mul_le_mul_right _ (roundSig53_mono a b h)))

set_option maxRecDepth 8000 in
theorem padMagnitude_maxLease :
    padMagnitude 8384883669867977983 = 838488366986797824 := by decide

theorem padMagnitude_le_max (a : Nat) (h : a ≤ 8384883669867977983) :
    a + padMagnitude a ≤ 9223372036854775807 := by
  have h1 := padMagnitude_mono a 8384883669867977983 h
  rw [padMagnitude_maxLease] at h1
  omega

/-- Facts on one rounding to 53 bits, in linear form. -/
theorem roundSig53_linear (n : Nat) :
    ∃ D, 0 < D ∧ 2 * roundSig53 n ≤ 2 * n + D ∧ 2 * n ≤ 2 * roundSig53 n + D ∧
      (roundSig53 n = n ∨ 4503599627370496 * D ≤ n) := by
  refine ⟨2 ^ (bitLen n - 53), Nat.two_pow_pos _, ?_, ?_, ?_⟩
  · exact (roundHalfEven_near n _ (Nat.two_pow_pos _)).1
  · exact (roundHalfEven_near n _ (Nat.two_pow_pos _)).2
  · by_cases hs : bitLen n - 53 = 0
    · left
      have : bitLen n ≤ 53 := by omega
      have hlt : n < 2 ^ 53 := lt_of_lt_of_le (lt_two_pow_bitLen n)
        (Nat.pow_le_pow_right (by norm_num) this)
      exact roundSig53_of_lt n hlt
    · right
      have hn0 : n ≠ 0 := by
        intro hz
        subst hz
        simp [bitLen, bitLenAux_zero] at hs
      have h1 := two_pow_bitLen_pred_le n hn0
      have h2 : 2 ^ (bitLen n - 1) = 2 ^ 52 * 2 ^ (bitLen n - 53) := by
        rw [← pow_add]
        congr 1
        omega
      rw [h2] at h1
      have h52 : (2 : Nat) ^ 52 = 4503599627370496 := by norm_num
      rw [h52] at h1
      exact h1

theorem padMagnitude_approx (a : Nat) :
    10 * padMagnitude a ≤ a + a / 2 ^ 51 ∧ a ≤ 10 * padMagnitude a + 10 + a / 2 ^ 52 := by
  obtain ⟨D1, hD1, hu1, hl1, hc1⟩ := roundSig53_linear a
  obtain ⟨D2, hD2, hu2, hl2, hc2⟩ := roundSig53_linear (roundSig53 a * tenthSig)
  have hP : roundSig53 a * tenthSig = roundSig53 a * 3602879701896397 := rfl
  have h55 : (2 : Nat) ^ 55 = 36028797018963968 := by norm_num
  have h51 : (2 : Nat) ^ 51 = 2251799813685248 := by norm_num
  have h52 : (2 : Nat) ^ 52 = 4503599627370496 := by norm_num
  unfold padMagnitude
  rw [h55, h51, h52]
  have p1 := Nat.mul_div_le (roundSig53 (roundSig53 a * tenthSig)) 36028797018963968
  have p2 := Nat.lt_mul_div_succ (roundSig53 (roundSig53 a * tenthSig))
    (show 0 < 36028797018963968 by norm_num)
  have q1 := Nat.mul_div_le a 2251799813685248
  have q2 := Nat.lt_mul_div_succ a (show 0 < 2251799813685248 by norm_num)
  have r1 := Nat.mul_div_le a 4503599627370496
  have r2 := Nat.lt_mul_div_succ a (show 0 < 4503599627370496 by norm_num)
  generalize roundSig53 (roundSig53 a * tenthSig) / 36028797018963968 = pad at *
  generalize a / 2251799813685248 = e51 at *
  generalize a / 4503599627370496 = e52 at *
  generalize roundSig53 (roundSig53 a * tenthSig) = X at *
  rw [hP] at hu2 hl2 hc2
  generalize roundSig53 a = A at *
  rcases hc1 with hc1 | hc1 <;> rcases hc2 with hc2 | hc2 <;> constructor <;> omega

theorem padMagnitude_exact (a : Nat) (h : a < 6755399441055749) :
    padMagnitude a = a / 10 := by
  have ha : roundSig53 a = a := roundSig53_of_lt a (by
    have : (2 : Nat) ^ 53 = 9007199254740992 := by norm_num
    omega)
  have h55 : (2 : Nat) ^ 55 = 36028797018963968 := by norm_num
  have h52 : (2 : Nat) ^ 52 = 4503599627370496 := by norm_num
  have h105 : (2 : Nat) ^ 105 = 40564819207303340847894502572032 := by norm_num
  have hPdef : a * tenthSig = a * 3602879701896397 := rfl
  have hP : a * tenthSig < 2 ^ 105 := by
    rw [hPdef, h105]
    omega
  have ht : bitLen (a * tenthSig) - 53 ≤ 52 := by
    have := bitLen_le_of_lt _ 105 hP
    omega
  have hpos : 0 < 2 ^ (bitLen (a * tenthSig) - 53) := Nat.two_pow_pos _
  have hD : 2 ^ (bitLen (a * tenthSig) - 53) ≤ 2 ^ 52 :=
    Nat.pow_le_pow_right (by norm_num) ht
  have hdvd55 : 2 ^ (bitLen (a * tenthSig) - 53) ∣ a / 10 * 2 ^ 55 :=
    Dvd.dvd.mul_left (Nat.pow_dvd_pow 2 (by omega)) _
  have hlow : a / 10 * 2 ^ 55 ≤ roundSig53 (a * tenthSig) := by
    apply roundSig53_ge_of_dvd _ _ hdvd55
    rw [hPdef, h55]
    omega
  have hnear : 2 * roundSig53 (a * tenthSig) ≤
      2 * (a * tenthSig) + 2 ^ (bitLen (a * tenthSig) - 53) :=
    (roundHalfEven_near (a * tenthSig) _ hpos).1
  unfold padMagnitude
  rw [ha]
  apply Nat.div_eq_of_lt_le hlow
  generalize roundSig53 (a * tenthSig) = X at hnear ⊢
  generalize 2 ^ (bitLen (a * tenthSig) - 53) = D at hnear hD
  rw [hPdef] at hnear
  rw [h55]
  rw [h52] at hD
  omega

theorem leasePadding_ofNat (a : Nat) : leasePadding (a : Int) = ((padMagnitude a : Nat) : Int) := by
  unfold leasePadding
  rw [if_neg (show ¬ ((a : Int) < 0) by omega), Int.natAbs_ofNat]

theorem leasePadding_neg_ofNat (a : Nat) :
    leasePadding (-(a : Int)) = -((padMagnitude a : Nat) : Int) := by
  unfold leasePadding
  by_cases h : a = 0
  · subst h
    have hz : padMagnitude 0 = 0 := by decide
    simp [hz]
  · rw [if_pos (show -(a : Int) < 0 by omega), Int.natAbs_neg, Int.natAbs_ofNat]

theorem leaseOffset_ofNat (a : Nat) (h1 : a ≤ 8384883669867977983) :
    leaseOffset (a : Int) = (a : Int) + leasePadding (a : Int) ∧
    leaseOffset (-(a : Int)) = -((a : Int) + leasePadding (a : Int)) := by
  have hp := padMagnitude_le_max a h1
  unfold leaseOffset
  rw [leasePadding_neg_ofNat, leasePadding_ofNat]
  constructor
  · apply wrap64_of_range <;> omega
  · have hw := wrap64_of_range (-(a : Int) + -((padMagnitude a : Nat) : Int))
      (by omega) (by omega)
    rw [hw]
    omega

/-- C6 (as amended): for a request whose role exists, with `L` the lease in
force (one hour when no policy is stored, the stored `Lease` otherwise), the
value bound to `expiration` in every statement handed to `Prepare` is the
formatted instant `now + leaseOffset L`. For `0 ≤ L ≤ 8384883669867977983` ns
the sum of lease and padding does not wrap, the padding is not negative, so
the instant is not earlier than `now + L`, and strictly later when `L` is at
least 10 ns; below `6755399441055749` ns the padding is the tenth of `L`
rounded down, and throughout ten times the padding lies between
`L - 10 - L / 2^52` and `L + L / 2^51`; the offset of the negated lease is the
negated offset. -/
theorem C6_expiration_padding (w : Env) (req : Request) (role : RoleEntry)
    (stored : Option ConfigLease) (L : Int)
    (hL : L = (match stored with
      | none => 3600000000000
      | some l => l.Lease))
    (hRole : w.Role req.name = Except.ok (some role))
    (hLease : w.Lease = Except.ok stored)
    (h0 : 0 ≤ L) (h1 : L ≤ 8384883669867977983) :
    (∃ k, preparedTexts (pathRoleCreateRead w req).trace =
      ((w.SplitSQL role.SQL).map (fun s => w.Query s
        [(lit "name", (req.DisplayName.take 26 ++ lit "-" ++ w.uuid1).take 63),
         (lit "password", w.uuid2),
         (lit "expiration", w.formatTime (w.now + leaseOffset L))])).take k) ∧
    leaseOffset L = L + leasePadding L ∧
    0 ≤ leasePadding L ∧
    w.now + L ≤ w.now + leaseOffset L ∧
    (10 ≤ L → w.now + L < w.now + leaseOffset L) ∧
    (L < 6755399441055749 → leasePadding L = L / 10) ∧
    10 * leasePadding L ≤ L + L / 2 ^ 51 ∧
    L ≤ 10 * leasePadding L + 10 + L / 2 ^ 52 ∧
    leaseOffset (-L) = -leaseOffset L := by
  refine ⟨⟨_, handler_preparedTexts w req role stored L hL hRole hLease⟩, ?_⟩
  clear hL hRole hLease
  obtain ⟨a, rfl⟩ := Int.eq_ofNat_of_zero_le h0
  have ha : a ≤ 8384883669867977983 := by exact_mod_cast h1
  obtain ⟨hoff, hneg⟩ := leaseOffset_ofNat a ha
  have hapx := padMagnitude_approx a
  have h51 : (2 : Nat) ^ 51 = 2251799813685248 := by norm_num
  have h52 : (2 : Nat) ^ 52 = 4503599627370496 := by norm_num
  have h51i : (2 : Int) ^ 51 = 2251799813685248 := by norm_num
  have h52i : (2 : Int) ^ 52 = 4503599627370496 := by norm_num
  rw [h51, h52] at hapx
  rw [hneg, hoff, leasePadding_ofNat, h51i, h52i]
  refine ⟨rfl, by omega, by omega, ?_, ?_, by omega, by omega, rfl⟩
  · intro h10
    have := padMagnitude_pos a (by omega)
    omega
  · intro hlt
    have hs := padMagnitude_exact a (by omega)
    rw [hs]
    push_cast
    rfl

/-- Witness of C6 (as amended): in `demoEnv` no policy is stored, the lease is
one hour and its padding is six minutes. -/
theorem C6_expiration_padding_witness :
    (0 : Int) ≤ 3600000000000 ∧ (3600000000000 : Int) ≤ 8384883669867977983 ∧
    demoEnv.now + 3600000000000 < demoEnv.now + leaseOffset 3600000000000 ∧
    leasePadding 3600000000000 = 360000000000 :=
  ⟨by decide, by decide,
   (C6_expiration_padding demoEnv demoReq demoRole none 3600000000000 rfl rfl rfl
      (by decide) (by decide)).2.2.2.2.1 (by decide),
   ((C6_expiration_padding demoEnv demoReq demoRole none 3600000000000 rfl rfl rfl
      (by decide) (by decide)).2.2.2.2.2.1 (by decide)).trans (by decide)⟩

/-- C6 as stated fails: a lease of 5 ns gets no padding, so the offset equals
the lease and is not strictly greater; the same holds for a lease of 0, and a
lease of 15 ns is padded by 1 ns, not by a tenth of 15. -/
theorem C6_counterexample :
    leaseOffset 5 = 5 ∧ ¬ (5 < leaseOffset 5) ∧ leaseOffset 0 = 0 ∧ leaseOffset 15 = 16 := by
  decide

set_option maxRecDepth 8000 in
/-- The bounds of the amended C6 are the last ones that hold: at
`6755399441055749` ns the padding is one more than the tenth rounded down,
and at `8384883669867977984` ns the sum of lease and padding wraps around to
the least `int64`. -/
theorem leaseOffset_at_the_bounds :
    leasePadding 6755399441055749 = 6755399441055749 / 10 + 1 ∧
    leaseOffset 8384883669867977983 = 9223372036854775807 ∧
    leaseOffset 8384883669867977984 = -9223372036854775808 := by
  decide

end Postgresql
